import Mathlib

/-!
# Chat application: socket server and message history route

A shallow embedding of `backend/Server.js` (the Socket.IO handlers
`authenticate`, `create_channel`, `join_channel`, `send_message`,
`message_seen`, `disconnect`) and of `backend/routes/Messages.js`
(`GET /channels/:channelId/messages`).

The relational store is a record of three tables kept as lists in insertion
order.  Socket.IO is modelled by the list of live sockets, each holding the
rooms it has joined; an emission is recorded as a pair of the receiving socket
id and the event.  Integer columns and payload identifiers are natural numbers,
dates are natural numbers (milliseconds).  The handlers are given for
identifiers the store takes as values of its INTEGER columns;
`message_seen_integer` adds what happens to a message id beyond that range.  The bookkeeping column `updatedAt`,
which no handler reads, is not represented, and neither is the room every
socket holds under its own id.

Each handler is a function from the state before to the state after and the
emissions made, so that an `await` chain runs to completion before the next
event is handled.  Store calls fail only where a declared constraint refuses
the row (`allowNull: false`, the foreign keys the migrations leave in place); a
refusal is the `none` result and leads to the `catch` branch of the handler.
The schema is the one the migrations build: `001_create_tables.js`, then
`20250414173600-update-channels-structure.js`, which drops `Channels` with
`cascade` and creates it again, so that `Messages.channelId` is left without
its foreign key while `Messages.userId` keeps its own.
-/

namespace ChatApp

/-! ## Tables -/

/-- Row of `Users` (migration `001_create_tables.js`), restricted to the
columns the socket server reads or writes. -/
structure User where
  id : Nat
  username : String
  phoneNumber : String
  avatar : Option String
  online : Bool
deriving DecidableEq, Repr

/-- Row of `Channels` (`models/Channel.js`). -/
structure Channel where
  id : Nat
  user1Id : Nat
  user2Id : Nat
  lastMessageId : Option Nat
  lastMessageTime : Option Nat
deriving DecidableEq, Repr

/-- Row of `Messages` (`models/Message.js`) with its `createdAt` column. -/
structure Message where
  id : Nat
  content : String
  userId : Nat
  channelId : Nat
  delivered : Bool
  createdAt : Nat
deriving DecidableEq, Repr

/-! ## Sockets and rooms -/

/-- Room names used by the server: the template string user_ followed by the
user id, and a bare channel id. -/
inductive Room where
  | user (userId : Nat)
  | channel (channelId : Nat)
deriving DecidableEq, Repr

/-- One live connection: `socket.id`, the closure variable `currentUserId` of
its connection handler, and the rooms it has joined. -/
structure Socket where
  id : Nat
  currentUserId : Option Nat
  rooms : List Room
deriving DecidableEq, Repr

/-- Whole server state: the three tables and the live sockets. -/
structure State where
  users : List User
  channels : List Channel
  messages : List Message
  sockets : List Socket
deriving DecidableEq, Repr

/-! ## Event payloads -/

/-- The `include` of `User` with attributes `id`, `username`, `avatar`. -/
structure UserPublic where
  id : Nat
  username : String
  avatar : Option String
deriving DecidableEq, Repr

/-- Message row together with its included author. -/
structure MessageWithUser where
  message : Message
  User : Option UserPublic
deriving DecidableEq, Repr

/-- Message row with the `include` of `User` restricted to `username`, as the
history route returns it. -/
structure MessageWithUsername where
  message : Message
  username : Option String
deriving DecidableEq, Repr

/-- The object `channelData` built by `create_channel`. -/
structure ChannelData where
  id : Nat
  name : String
  avatar : Option String
  online : Bool
  lastMessage : Option Nat
  lastMessageTime : Option Nat
deriving DecidableEq, Repr

/-- Payload of `channel_created`: the stored row when the channel existed, the
object `channelData` when it was just created. -/
inductive ChannelCreated where
  | existing (channel : Channel)
  | created (channelData : ChannelData)
deriving DecidableEq, Repr

/-- The `id` property of a `channel_created` payload. -/
def ChannelCreated.id : ChannelCreated → Nat
  | .existing channel => channel.id
  | .created channelData => channelData.id

/-- Events the server emits. -/
inductive Outbound where
  | user_status_change (userId : Nat) (online : Bool)
  | channel_created (payload : ChannelCreated)
  | new_channel (channelData : ChannelData)
  | channel_error
  | message_history (messages : List MessageWithUser)
  | receive_message (messageWithUser : Option MessageWithUser)
  | message_delivered (messageId : Nat) (channelId : Nat)
  | message_error
deriving DecidableEq, Repr

/-- The event name passed to `emit` for each event. -/
def Outbound.name : Outbound → String
  | .user_status_change _ _ => "user_status_change"
  | .channel_created _ => "channel_created"
  | .new_channel _ => "new_channel"
  | .channel_error => "channel_error"
  | .message_history _ => "message_history"
  | .receive_message _ => "receive_message"
  | .message_delivered _ _ => "message_delivered"
  | .message_error => "message_error"

/-- One delivery of an event to one socket. -/
structure Emit where
  target : Nat
  event : Outbound
deriving DecidableEq, Repr

/-- Payload of `create_channel`. -/
structure CreateChannelData where
  userId : Nat
  targetUserId : Nat
deriving DecidableEq, Repr

/-- Payload of `send_message`; `content` may be absent. -/
structure SendMessageData where
  content : Option String
  userId : Nat
  channelId : Nat
deriving DecidableEq, Repr

/-! ## Socket.IO primitives -/

/-- `socket.join(room)` for the socket `sid`. -/
def socketJoin (s : State) (sid : Nat) (room : Room) : State :=
  { s with sockets := s.sockets.map fun k =>
      if k.id = sid ∧ room ∉ k.rooms then { k with rooms := k.rooms ++ [room] } else k }

/-- `io.in(room).fetchSockets()`: the distinct socket ids joined to `room`. -/
def fetchSockets (s : State) (room : Room) : List Nat :=
  ((s.sockets.filter fun k => decide (room ∈ k.rooms)).map fun k => k.id).dedup

/-- `io.to(room).emit(event)`. -/
def ioToEmit (s : State) (room : Room) (event : Outbound) : List Emit :=
  (fetchSockets s room).map fun sid => ⟨sid, event⟩

/-- `socket.broadcast.emit(event)`: every live socket except `sid`. -/
def socketBroadcastEmit (s : State) (sid : Nat) (event : Outbound) : List Emit :=
  (((s.sockets.map fun k => k.id).dedup).filter fun i => decide (i ≠ sid)).map
    fun i => ⟨i, event⟩

/-- The closure variable `currentUserId` of socket `sid`. -/
def currentUserId (s : State) (sid : Nat) : Option Nat :=
  (s.sockets.find? fun k => decide (k.id = sid)).bind fun k => k.currentUserId

/-! ## Store primitives -/

/-- Value of an auto-increment primary key for the next inserted row: one more
than the greatest key in the table (no handler deletes rows). -/
def nextId (ids : List Nat) : Nat :=
  ids.foldr max 0 + 1

/-- `User.findByPk(id)`. -/
def User.findByPk (users : List User) (id : Nat) : Option User :=
  users.find? fun u => decide (u.id = id)

/-- The `where` of the lookup in `create_channel`: either orientation of the
pair. -/
def Channel.pairMatch (userId targetUserId : Nat) (c : Channel) : Bool :=
  (decide (c.user1Id = userId) && decide (c.user2Id = targetUserId)) ||
  (decide (c.user1Id = targetUserId) && decide (c.user2Id = userId))

/-- `Channel.findOne` with the `Op.or` condition of `create_channel`. -/
def Channel.findOne (channels : List Channel) (userId targetUserId : Nat) : Option Channel :=
  channels.find? (Channel.pairMatch userId targetUserId)

/-- `Channel.create({ user1Id, user2Id })`: the insert is refused when a
participant is not a row of `Users` (foreign keys of `Channels`). -/
def Channel.create (s : State) (user1Id user2Id : Nat) : Option (Channel × State) :=
  if (User.findByPk s.users user1Id).isSome ∧ (User.findByPk s.users user2Id).isSome then
    let channel : Channel :=
      { id := nextId (s.channels.map fun c => c.id), user1Id := user1Id, user2Id := user2Id,
        lastMessageId := none, lastMessageTime := none }
    some (channel, { s with channels := s.channels ++ [channel] })
  else none

/-- The text of a string value as the store keeps it: a `text` column of
PostgreSQL holds no U+0000, and the value is written with each U+0000 replaced
by the two characters backslash (92) and zero (48); every other character is
kept. -/
def storeText (text : String) : String :=
  ⟨text.data.flatMap fun c => if c.toNat = 0 then [Char.ofNat 92, Char.ofNat 48] else [c]⟩

/-- `Message.create({ content, userId, channelId, delivered: false })` at time
`now`: refused when `content` is null (`allowNull: false`) and when the author
is not a stored user (foreign key of `Messages.userId`).  The channel is not
looked at: the foreign key of `Messages.channelId` went with the `Channels`
table that migration `20250414173600` drops with `cascade`, and the table
created in its place does not bring it back.  The content is kept as
`storeText` writes it. -/
def Message.create (s : State) (content : Option String) (userId channelId now : Nat) :
    Option (Message × State) :=
  match content with
  | none => none
  | some text =>
    if (User.findByPk s.users userId).isSome then
      let message : Message :=
        { id := nextId (s.messages.map fun m => m.id), content := storeText text,
          userId := userId, channelId := channelId, delivered := false, createdAt := now }
      some (message, { s with messages := s.messages ++ [message] })
    else none

/-- The included author of a message, attributes `id`, `username`, `avatar`. -/
def includeUser (users : List User) (m : Message) : MessageWithUser :=
  { message := m
    User := (User.findByPk users m.userId).map fun u =>
      { id := u.id, username := u.username, avatar := u.avatar } }

/-- `Message.findByPk(id, { include: User })`. -/
def Message.findByPk (s : State) (id : Nat) : Option MessageWithUser :=
  (s.messages.find? fun m => decide (m.id = id)).map (includeUser s.users)

/-- One listing for `ORDER BY "createdAt" DESC`: the rows by descending
timestamp, rows with equal timestamps in table order.  The query names no
second sort key, so the database is free to return rows with equal timestamps
in another order, and in a different one for each query; `CreatedAtDescListing`
describes every listing it may use. -/
def orderByCreatedAtDesc (ms : List Message) : List Message :=
  ms.insertionSort fun a b => b.createdAt ≤ a.createdAt

/-- The listings the database may use to answer `ORDER BY "createdAt" DESC`
queries: `listing offset limit rows` is the order in which the matching `rows`
are laid out for the query with these `OFFSET` and `LIMIT`.  Each is an
arrangement of the matching rows by descending timestamp; nothing else is
fixed, neither the order among rows with equal timestamps nor that two queries
use the same arrangement. -/
def CreatedAtDescListing (listing : Nat → Nat → List Message → List Message) : Prop :=
  ∀ offset limit rows,
    (listing offset limit rows).Perm rows ∧
    (listing offset limit rows).Pairwise fun a b => b.createdAt ≤ a.createdAt

/-- `Message.update({ delivered: true }, { where: { id } })`. -/
def markDelivered (s : State) (messageId : Nat) : State :=
  { s with messages := s.messages.map fun m =>
      if m.id = messageId then { m with delivered := true } else m }

/-- The bulk update of `join_channel`: messages of the channel by another
author that are not yet delivered. -/
def catchUp (s : State) (channelId userId : Nat) : State :=
  { s with messages := s.messages.map fun m =>
      if m.channelId = channelId ∧ m.userId ≠ userId ∧ m.delivered = false then
        { m with delivered := true } else m }

/-- `Channel.update({ lastMessageId, lastMessageTime }, { where: { id } })`. -/
def setLastMessage (s : State) (channelId messageId createdAt : Nat) : State :=
  { s with channels := s.channels.map fun c =>
      if c.id = channelId then
        { c with lastMessageId := some messageId, lastMessageTime := some createdAt } else c }

/-- `User.update({ online }, { where: { id } })`. -/
def setOnline (s : State) (userId : Nat) (online : Bool) : State :=
  { s with users := s.users.map fun u => if u.id = userId then { u with online := online } else u }

/-! ## Handlers of `Server.js` -/

/-- `socket.on('create_channel')`. -/
def create_channel (s : State) (sid : Nat) (data : CreateChannelData) : State × List Emit :=
  match Channel.findOne s.channels data.userId data.targetUserId with
  | some existingChannel => (s, [⟨sid, .channel_created (.existing existingChannel)⟩])
  | none =>
    match Channel.create s data.userId data.targetUserId with
    | none => (s, [⟨sid, .channel_error⟩])
    | some (channel, s1) =>
      match User.findByPk s1.users data.targetUserId with
      | none => (s1, [⟨sid, .channel_error⟩])
      | some targetUser =>
        let channelData : ChannelData :=
          { id := channel.id, name := targetUser.username, avatar := targetUser.avatar,
            online := targetUser.online, lastMessage := none, lastMessageTime := none }
        let s2 := socketJoin s1 sid (.channel channel.id)
        (s2, ioToEmit s2 (.user data.targetUserId) (.new_channel channelData) ++
              [⟨sid, .channel_created (.created channelData)⟩])

/-- `socket.on('join_channel')`.  The test `if (currentUserId)` fails for
`null` and for `0`. -/
def join_channel (s : State) (sid : Nat) (channelId : Nat) : State × List Emit :=
  let s1 := socketJoin s sid (.channel channelId)
  let messages :=
    ((orderByCreatedAtDesc (s1.messages.filter fun m => decide (m.channelId = channelId))).take 50).map
      (includeUser s1.users)
  let s2 :=
    match currentUserId s1 sid with
    | some u => if u ≠ 0 then catchUp s1 channelId u else s1
    | none => s1
  (s2, [⟨sid, .message_history messages.reverse⟩])

/-- `socket.on('send_message')` at time `now`. -/
def send_message (s : State) (sid : Nat) (data : SendMessageData) (now : Nat) :
    State × List Emit :=
  match Message.create s data.content data.userId data.channelId now with
  | none => (s, [⟨sid, .message_error⟩])
  | some (message, s1) =>
    let messageWithUser := Message.findByPk s1 message.id
    let s2 := setLastMessage s1 data.channelId message.id message.createdAt
    let received := ioToEmit s2 (.channel data.channelId) (.receive_message messageWithUser)
    let socketsInChannel := fetchSockets s2 (.channel data.channelId)
    if socketsInChannel.length > 1 then
      let s3 := markDelivered s2 message.id
      (s3, received ++
        ioToEmit s3 (.channel data.channelId) (.message_delivered message.id data.channelId))
    else (s2, received)

/-- `socket.on('message_seen')` for a `messageId` the store accepts as a value
of the INTEGER column `Messages.id` (see `message_seen_integer` for any
number). -/
def message_seen (s : State) (messageId channelId : Nat) : State × List Emit :=
  let s1 := markDelivered s messageId
  (s1, ioToEmit s1 (.channel channelId) (.message_delivered messageId channelId))

/-- `socket.on('authenticate')`; `verify` is `jwt.verify` followed by reading
`decoded.id`, `none` when verification throws. -/
def authenticate (verify : String → Option Nat) (s : State) (sid : Nat) (token : String) :
    State × List Emit :=
  match verify token with
  | none => (s, [])
  | some id =>
    let s1 : State :=
      { s with sockets := s.sockets.map fun k =>
          if k.id = sid then { k with currentUserId := some id } else k }
    let s2 := setOnline s1 id true
    let status := socketBroadcastEmit s2 sid (.user_status_change id true)
    (socketJoin s2 sid (.user id), status)

/-- `socket.on('disconnect')`: Socket.IO has already removed the socket from
its rooms when the handler runs. -/
def disconnect (s : State) (sid : Nat) : State × List Emit :=
  let s1 : State := { s with sockets := s.sockets.filter fun k => decide (k.id ≠ sid) }
  match currentUserId s sid with
  | some u =>
    if u ≠ 0 then
      let s2 := setOnline s1 u false
      (s2, socketBroadcastEmit s2 sid (.user_status_change u false))
    else (s1, [])
  | none => (s1, [])

/-- `io.on('connection')`: a fresh socket with `currentUserId = null`; the
engine never hands out the id of a live socket. -/
def connect (s : State) (sid : Nat) : State × List Emit :=
  if sid ∈ s.sockets.map (fun k => k.id) then (s, [])
  else ({ s with sockets := s.sockets ++ [{ id := sid, currentUserId := none, rooms := [] }] }, [])

/-! ## History route of `routes/Messages.js` -/

/-- `GET /channels/:channelId/messages` after the `authenticate` middleware has
passed: `none` is the 500 answer (a negative `OFFSET` is refused by the
database). -/
def getChannelMessages (s : State) (channelId page limit : Nat) :
    Option (List MessageWithUsername) :=
  let offset : Int := ((page : Int) - 1) * (limit : Int)
  if offset < 0 then none
  else
    let messages :=
      (((orderByCreatedAtDesc (s.messages.filter fun m => decide (m.channelId = channelId))).drop
        offset.toNat).take limit).map fun m =>
          ({ message := m, username := (User.findByPk s.users m.userId).map fun u => u.username } :
            MessageWithUsername)
    some messages.reverse

/-- The history route when the database lays the rows out by `listing`, which
may depend on the `OFFSET` and `LIMIT` of the query; `getChannelMessages` is
the case of `orderByCreatedAtDesc` for every query. -/
def getChannelMessagesBy (listing : Nat → Nat → List Message → List Message) (s : State)
    (channelId page limit : Nat) : Option (List MessageWithUsername) :=
  let offset : Int := ((page : Int) - 1) * (limit : Int)
  if offset < 0 then none
  else
    let messages :=
      (((listing offset.toNat limit
          (s.messages.filter fun m => decide (m.channelId = channelId))).drop
        offset.toNat).take limit).map fun m =>
          ({ message := m, username := (User.findByPk s.users m.userId).map fun u => u.username } :
            MessageWithUsername)
    some messages.reverse

/-! ## Runs of the server -/

/-- Handles a sequence of `create_channel` requests one after the other, each
given as the requesting socket and its payload; returns the final state and,
per request, the requesting socket with the emissions of that request. -/
def createChannelSeq (s : State) :
    List (Nat × CreateChannelData) → State × List (Nat × List Emit)
  | [] => (s, [])
  | r :: rest =>
    let out := create_channel s r.1 r.2
    let tail := createChannelSeq out.1 rest
    (tail.1, (r.1, out.2) :: tail.2)

/-- What socket `sid` is answered by `create_channel`: `some id` for each
`channel_created` carrying `id`, `none` for each `channel_error`. -/
def channelAnswers (sid : Nat) (emits : List Emit) : List (Option Nat) :=
  emits.filterMap fun e =>
    if e.target = sid then
      match e.event with
      | .channel_created payload => some (some payload.id)
      | .channel_error => some none
      | _ => none
    else none

/-- The emissions of a given event name. -/
def emitsNamed (name : String) (emits : List Emit) : List Emit :=
  emits.filter fun e => decide (e.event.name = name)

/-- An inbound event together with the socket it arrives on. -/
inductive Input where
  | connect (sid : Nat)
  | authenticate (sid : Nat) (token : String)
  | create_channel (sid : Nat) (data : CreateChannelData)
  | join_channel (sid : Nat) (channelId : Nat)
  | send_message (sid : Nat) (data : SendMessageData) (now : Nat)
  | message_seen (sid : Nat) (messageId : Nat) (channelId : Nat)
  | disconnect (sid : Nat)
deriving DecidableEq, Repr

/-- The socket an inbound event arrives on. -/
def Input.sid : Input → Nat
  | .connect sid => sid
  | .authenticate sid _ => sid
  | .create_channel sid _ => sid
  | .join_channel sid _ => sid
  | .send_message sid _ _ => sid
  | .message_seen sid _ _ => sid
  | .disconnect sid => sid

/-- One inbound event handled to completion.  Handlers are registered per
connection, so an event on a socket that is not live is not handled. -/
def step (verify : String → Option Nat) (s : State) (i : Input) : State × List Emit :=
  match i with
  | .connect sid => connect s sid
  | .authenticate sid token =>
    if sid ∈ s.sockets.map (fun k => k.id) then authenticate verify s sid token else (s, [])
  | .create_channel sid data =>
    if sid ∈ s.sockets.map (fun k => k.id) then create_channel s sid data else (s, [])
  | .join_channel sid channelId =>
    if sid ∈ s.sockets.map (fun k => k.id) then join_channel s sid channelId else (s, [])
  | .send_message sid data now =>
    if sid ∈ s.sockets.map (fun k => k.id) then send_message s sid data now else (s, [])
  | .message_seen sid messageId channelId =>
    if sid ∈ s.sockets.map (fun k => k.id) then message_seen s messageId channelId else (s, [])
  | .disconnect sid =>
    if sid ∈ s.sockets.map (fun k => k.id) then disconnect s sid else (s, [])

/-- The state after handling a list of inbound events in order. -/
def exec (verify : String → Option Nat) (s : State) (run : List Input) : State :=
  run.foldl (fun st i => (step verify st i).1) s

/-- Some live socket bound to a user other than the author of `m` is joined to
the channel of `m`. -/
def joinedByOther (st : State) (m : Message) : Bool :=
  st.sockets.any fun k =>
    decide (Room.channel m.channelId ∈ k.rooms) &&
      match k.currentUserId with
      | some u => decide (u ≠ m.userId)
      | none => false

/-- The ways an inbound event, handled in state `st`, turns the message `m`
into a delivered one: it is the `send_message` that stores `m` while more than
one socket is in the channel room; it is a `join_channel` for the channel of
`m` on a socket bound to another user while `m` is stored undelivered; it is a
`message_seen` naming `m` while `m` is stored undelivered. -/
def DeliveryCause (st : State) (i : Input) (m : Message) : Prop :=
  match i with
  | .send_message _ data _ =>
    data.channelId = m.channelId ∧ data.userId = m.userId ∧
      m.id = nextId (st.messages.map fun x => x.id) ∧
      1 < (fetchSockets st (.channel m.channelId)).length
  | .join_channel sid channelId =>
    channelId = m.channelId ∧
      (∃ u, currentUserId st sid = some u ∧ u ≠ 0 ∧ u ≠ m.userId) ∧
      { m with delivered := false } ∈ st.messages
  | .message_seen _ messageId _ =>
    messageId = m.id ∧ { m with delivered := false } ∈ st.messages
  | _ => False

/-! ## Sample data -/

/-- Two registered users. -/
def sampleUsers : List User :=
  [⟨1, "ann", "5550000001", none, false⟩, ⟨2, "bob", "5550000002", some "bob.png", false⟩]

/-- Store without channels or messages; socket 10 is bound to user 1 and
socket 20 to user 2, each in its personal room. -/
def sampleState : State :=
  ⟨sampleUsers, [], [], [⟨10, some 1, [.user 1]⟩, ⟨20, some 2, [.user 2]⟩]⟩

/-- Store with one channel between users 1 and 2 and no live socket. -/
def sampleChannelState : State :=
  ⟨sampleUsers, [⟨1, 1, 2, none, none⟩], [], []⟩

/-- Token verifier accepting the two tokens of the sample users. -/
def sampleVerify (token : String) : Option Nat :=
  if token = "token-ann" then some 1 else if token = "token-bob" then some 2 else none

/-- Store with one channel between users 1 and 2; sockets 10 (user 1) and 20
(user 2) are joined to it, socket 30 (user 2) is not. -/
def sampleJoinedState : State :=
  ⟨sampleUsers, [⟨1, 1, 2, none, none⟩], [],
    [⟨10, some 1, [.user 1, .channel 1]⟩, ⟨20, some 2, [.user 2, .channel 1]⟩,
     ⟨30, some 2, [.user 2]⟩]⟩

/-- Store in which user 1 has sent one message on channel 1 while only socket
10 was joined; socket 20 of user 2 has not joined yet. -/
def sampleUndeliveredState : State :=
  ⟨sampleUsers, [⟨1, 1, 2, some 1, some 100⟩], [⟨1, "hi", 1, 1, false, 100⟩],
    [⟨10, some 1, [.user 1, .channel 1]⟩, ⟨20, some 2, [.user 2]⟩]⟩

/-- Two connections of user 1 and none of user 2: both sockets connect,
authenticate as user 1 and join channel 1, then one of them sends "hi". -/
def sampleRun : List Input :=
  [.connect 10, .connect 11, .authenticate 10 "token-ann", .authenticate 11 "token-ann",
   .join_channel 10 1, .join_channel 11 1, .send_message 10 ⟨some "hi", 1, 1⟩ 100]

/-- The message rows of one page of the history route (empty for the 500
answer). -/
def historyPage (s : State) (channelId page limit : Nat) : List Message :=
  ((getChannelMessages s channelId page limit).getD []).map fun r => r.message

/-- The message rows of one page of the history route under `listing` (empty
for the 500 answer). -/
def historyPageBy (listing : Nat → Nat → List Message → List Message) (s : State)
    (channelId page limit : Nat) : List Message :=
  ((getChannelMessagesBy listing s channelId page limit).getD []).map fun r => r.message

/-- Exchanges the first two rows when they carry the same timestamp. -/
def swapTiedHead : List Message → List Message
  | a :: b :: rest => if a.createdAt = b.createdAt then b :: a :: rest else a :: b :: rest
  | rows => rows

/-- A database that answers the query with `OFFSET 1` from a listing in which
the first two rows, when tied, are exchanged, and every other query from the
table-order listing. -/
def sampleListing (offset _limit : Nat) (rows : List Message) : List Message :=
  if offset = 1 then swapTiedHead (orderByCreatedAtDesc rows) else orderByCreatedAtDesc rows

/-- Store in which channel 1 holds five messages created at the same time. -/
def sampleFiveTieState : State :=
  ⟨sampleUsers, [⟨1, 1, 2, some 5, some 100⟩],
    [⟨1, "a", 1, 1, true, 100⟩, ⟨2, "b", 2, 1, true, 100⟩, ⟨3, "c", 1, 1, true, 100⟩,
     ⟨4, "d", 2, 1, true, 100⟩, ⟨5, "e", 1, 1, true, 100⟩], []⟩

/-- Store in which channel 1 holds three messages created at different
times. -/
def sampleDistinctState : State :=
  ⟨sampleUsers, [⟨1, 1, 2, some 3, some 300⟩],
    [⟨1, "a", 1, 1, true, 100⟩, ⟨2, "b", 2, 1, true, 200⟩, ⟨3, "c", 1, 1, true, 300⟩], []⟩

/-- Store in which channel 1 holds two messages created at the same time. -/
def sampleTieState : State :=
  ⟨sampleUsers, [⟨1, 1, 2, some 2, some 100⟩],
    [⟨1, "first", 1, 1, true, 100⟩, ⟨2, "second", 2, 1, true, 100⟩], []⟩

/-- What handling `i` in state `st` writes to the `online` column of user `U`:
`true` for a verified `authenticate` as `U`, `false` for the `disconnect` of a
socket bound to `U`, nothing otherwise. -/
def onlineWrite (verify : String → Option Nat) (st : State) (i : Input) (U : Nat) : Option Bool :=
  match i with
  | .authenticate sid token =>
    if sid ∈ st.sockets.map (fun k => k.id) ∧ verify token = some U then some true else none
  | .disconnect sid =>
    if sid ∈ st.sockets.map (fun k => k.id) ∧ currentUserId st sid = some U ∧ U ≠ 0 then
      some false
    else none
  | _ => none

/-- One event of a run, keeping next to the state the last value written to
the `online` column of user `U`. -/
def onlineTrack (verify : String → Option Nat) (U : Nat) (acc : State × Option Bool)
    (i : Input) : State × Option Bool :=
  ((step verify acc.1 i).1,
    match onlineWrite verify acc.1 i U with
    | some b => some b
    | none => acc.2)

/-- The last value a run from `s0` wrote to the `online` column of user `U`,
`none` when the run never wrote it. -/
def lastOnlineWrite (verify : String → Option Nat) (s0 : State) (run : List Input) (U : Nat) :
    Option Bool :=
  (run.foldl (onlineTrack verify U) (s0, none)).2

/-- Two sockets connect and both authenticate as user 1. -/
def sampleTwoConnections : List Input :=
  [.connect 10, .connect 11, .authenticate 10 "token-ann", .authenticate 11 "token-ann"]

/-- The state in which socket `sid` is bound to `binding` (`none`: not
authenticated) and everything else is as in `s`. -/
def withBinding (s : State) (sid : Nat) (binding : Option Nat) : State :=
  { s with sockets := s.sockets.map fun k =>
      if k.id = sid then { k with currentUserId := binding } else k }

/-- Store with one undelivered message of user 1 on channel 1; socket 10 has
not authenticated and has joined nothing, socket 20 of user 2 is joined to
channel 1. -/
def sampleAnonymousState : State :=
  ⟨sampleUsers, [⟨1, 1, 2, some 1, some 100⟩], [⟨1, "hi", 1, 1, false, 100⟩],
    [⟨10, none, []⟩, ⟨20, some 2, [.user 2, .channel 1]⟩]⟩

/-- Every stored message belongs to a stored channel and its author is one of
the two participants of that channel. -/
def ParticipantIntegrity (s : State) : Prop :=
  ∀ m ∈ s.messages, ∃ c ∈ s.channels,
    c.id = m.channelId ∧ (m.userId = c.user1Id ∨ m.userId = c.user2Id)

/-- Every stored message has a stored user as its author (the foreign key of
`Messages.userId`). -/
def AuthorIntegrity (s : State) : Prop :=
  ∀ m ∈ s.messages, ∃ u ∈ s.users, u.id = m.userId

/-- Store with a third user who is no participant of channel 1. -/
def sampleOutsiderState : State :=
  ⟨[⟨1, "ann", "5550000001", none, false⟩, ⟨2, "bob", "5550000002", none, false⟩,
    ⟨3, "cy", "5550000003", none, false⟩],
   [⟨1, 1, 2, none, none⟩], [], [⟨30, some 3, [.user 3]⟩]⟩

/-- The rest of `create_channel` once the awaited `Channel.findOne` has
resolved to `existingChannel`. -/
def create_channel_resume (s : State) (sid : Nat) (data : CreateChannelData)
    (existingChannel : Option Channel) : State × List Emit :=
  match existingChannel with
  | some existingChannel => (s, [⟨sid, .channel_created (.existing existingChannel)⟩])
  | none =>
    match Channel.create s data.userId data.targetUserId with
    | none => (s, [⟨sid, .channel_error⟩])
    | some (channel, s1) =>
      match User.findByPk s1.users data.targetUserId with
      | none => (s1, [⟨sid, .channel_error⟩])
      | some targetUser =>
        let channelData : ChannelData :=
          { id := channel.id, name := targetUser.username, avatar := targetUser.avatar,
            online := targetUser.online, lastMessage := none, lastMessageTime := none }
        let s2 := socketJoin s1 sid (.channel channel.id)
        (s2, ioToEmit s2 (.user data.targetUserId) (.new_channel channelData) ++
              [⟨sid, .channel_created (.created channelData)⟩])

/-- Two `create_channel` requests whose store accesses interleave at the first
`await`: both lookups read the store before either request goes on.  Returns
the final state and the emissions of the first and of the second request. -/
def create_channel_interleaved (s : State) (sid1 : Nat) (data1 : CreateChannelData)
    (sid2 : Nat) (data2 : CreateChannelData) : State × List Emit × List Emit :=
  let found1 := Channel.findOne s.channels data1.userId data1.targetUserId
  let found2 := Channel.findOne s.channels data2.userId data2.targetUserId
  let out1 := create_channel_resume s sid1 data1 found1
  let out2 := create_channel_resume out1.1 sid2 data2 found2
  (out2.1, out1.2, out2.2)

/-- Store in which channel 1 holds 51 undelivered messages of user 1, with
increasing timestamps; socket 20 of user 2 has not joined yet. -/
def sampleLongChannelState : State :=
  ⟨sampleUsers, [⟨1, 1, 2, some 51, some 50⟩],
    (List.range 51).map (fun i => ⟨i + 1, "m", 1, 1, false, i⟩),
    [⟨10, some 1, [.user 1, .channel 1]⟩, ⟨20, some 2, [.user 2]⟩]⟩

/-! ## Phone number validation of `frontend/src/components/Auth.jsx` -/

/-- The regular-expression class `\d`: the ten ASCII digits. -/
def isRegexDigit (c : Char) : Bool :=
  decide (48 ≤ c.toNat) && decide (c.toNat ≤ 57)

/-- The regular-expression class `\s`: the white space and line terminator
code points of ECMAScript. -/
def isRegexSpace (c : Char) : Bool :=
  decide (c.toNat ∈ [9, 10, 11, 12, 13, 32, 160, 5760, 8232, 8233, 8239, 8287, 12288, 65279]) ||
    (decide (8192 ≤ c.toNat) && decide (c.toNat ≤ 8202))

/-- The class `[-()\s]`: hyphen (45), the two parentheses (40, 41) and white
space. -/
def isPhoneSeparator (c : Char) : Bool :=
  decide (c.toNat = 45) || decide (c.toNat = 40) || decide (c.toNat = 41) || isRegexSpace c

/-- `phoneNumber.replace(/[-()\s]/g, '')`: the value `formattedPhoneNumber`
sent to the server. -/
def formatPhoneNumber (phoneNumber : List Char) : List Char :=
  phoneNumber.filter fun c => !isPhoneSeparator c

/-- The greedy match of `\d{0,max}` at the front of the input: the number of
digits consumed and the rest of the input. -/
def matchDigits : Nat → List Char → Nat × List Char
  | 0, cs => (0, cs)
  | _ + 1, [] => (0, [])
  | max + 1, c :: cs =>
    if isRegexDigit c then ((matchDigits max cs).1 + 1, (matchDigits max cs).2) else (0, c :: cs)

/-- `/^\d{10,15}$/.test(input)`: at least ten digits are consumed and the
input ends there. -/
def phoneRegexTest (input : List Char) : Bool :=
  decide (10 ≤ (matchDigits 15 input).1) && (matchDigits 15 input).2.isEmpty

/-- `validatePhoneNumber` of `Register`. -/
def validatePhoneNumber (phoneNumber : List Char) : Bool :=
  phoneRegexTest (formatPhoneNumber phoneNumber)

/-! ## Events without a listener, and failing store calls -/

/-- The client emits `leave_channel` when a chat window closes
(`ChatWindow.jsx`), but `Server.js` registers no listener for it: the event is
dropped, nothing changes and nothing is emitted. -/
def leave_channel (s : State) (_sid : Nat) (_channelId : Nat) : State × List Emit :=
  (s, [])

/-- `create_channel` when the store call numbered `fault` rejects.  The calls
are numbered in the order they are awaited: 0 `Channel.findOne`, 1
`Channel.create`, 2 `User.findByPk`.  A call that is not reached does not
reject, and the handler then runs as `create_channel`.  Every rejection lands
in the `catch`, which emits `channel_error` to the socket; what was written
before stays written. -/
def create_channel_failing (s : State) (sid : Nat) (data : CreateChannelData) (fault : Nat) :
    State × List Emit :=
  match fault with
  | 0 => (s, [⟨sid, .channel_error⟩])
  | 1 =>
    match Channel.findOne s.channels data.userId data.targetUserId with
    | some _ => create_channel s sid data
    | none => (s, [⟨sid, .channel_error⟩])
  | 2 =>
    match Channel.findOne s.channels data.userId data.targetUserId with
    | some _ => create_channel s sid data
    | none =>
      match Channel.create s data.userId data.targetUserId with
      | none => (s, [⟨sid, .channel_error⟩])
      | some (_, s1) => (s1, [⟨sid, .channel_error⟩])
  | _ => create_channel s sid data

/-- `send_message` when the store call numbered `fault` rejects: 0
`Message.create`, 1 `Message.findByPk`, 2 `Channel.update`, 3
`message.update` (reached only with more than one socket in the room, after
`receive_message` has been broadcast).  Every rejection lands in the `catch`,
which emits `message_error` to the socket. -/
def send_message_failing (s : State) (sid : Nat) (data : SendMessageData) (now : Nat)
    (fault : Nat) : State × List Emit :=
  match fault with
  | 0 => (s, [⟨sid, .message_error⟩])
  | 1 =>
    match Message.create s data.content data.userId data.channelId now with
    | none => (s, [⟨sid, .message_error⟩])
    | some (_, s1) => (s1, [⟨sid, .message_error⟩])
  | 2 =>
    match Message.create s data.content data.userId data.channelId now with
    | none => (s, [⟨sid, .message_error⟩])
    | some (_, s1) => (s1, [⟨sid, .message_error⟩])
  | 3 =>
    match Message.create s data.content data.userId data.channelId now with
    | none => (s, [⟨sid, .message_error⟩])
    | some (message, s1) =>
      let messageWithUser := Message.findByPk s1 message.id
      let s2 := setLastMessage s1 data.channelId message.id message.createdAt
      let received := ioToEmit s2 (.channel data.channelId) (.receive_message messageWithUser)
      let socketsInChannel := fetchSockets s2 (.channel data.channelId)
      if socketsInChannel.length > 1 then (s2, received ++ [⟨sid, .message_error⟩])
      else (s2, received)
  | _ => send_message s sid data now

/-- `message_seen` when its store call, `Message.update` (number 0), rejects:
the `catch` only logs. -/
def message_seen_failing (s : State) (messageId channelId : Nat) (fault : Nat) :
    State × List Emit :=
  match fault with
  | 0 => (s, [])
  | _ => message_seen s messageId channelId

/-- Greatest value of an INTEGER column (`Messages.id`). -/
def integerMax : Nat := 2147483647

/-- `socket.on('message_seen')` for any number sent as `messageId`: a number
beyond the INTEGER range of `Messages.id` makes `Message.update` reject, which
is `message_seen_failing` at store call 0; any other is handled by
`message_seen`. -/
def message_seen_integer (s : State) (messageId channelId : Nat) : State × List Emit :=
  if messageId ≤ integerMax then message_seen s messageId channelId
  else message_seen_failing s messageId channelId 0

/-- `authenticate` when its store call, `User.update` (number 0), rejects: the
socket is already bound to the verified user; the `catch` only logs. -/
def authenticate_failing (verify : String → Option Nat) (s : State) (sid : Nat)
    (token : String) (fault : Nat) : State × List Emit :=
  match fault with
  | 0 =>
    match verify token with
    | none => (s, [])
    | some id =>
      ({ s with sockets := s.sockets.map fun k =>
          if k.id = sid then { k with currentUserId := some id } else k }, [])
  | _ => authenticate verify s sid token

/-! ## Lemmas on channel lookup and creation -/

/-- The lookup condition does not depend on the order of the two users. -/
theorem pairMatch_comm (a b : Nat) (c : Channel) :
    Channel.pairMatch a b c = Channel.pairMatch b a c := by
  unfold Channel.pairMatch
  exact Bool.or_comm _ _

/-- The channel lookup does not depend on the order of the two users. -/
theorem findOne_comm (cs : List Channel) (a b : Nat) :
    Channel.findOne cs a b = Channel.findOne cs b a := by
  unfold Channel.findOne
  congr 1
  funext c
  exact pairMatch_comm a b c

/-- A request for the pair in either order performs the same lookup. -/
theorem findOne_of_request (cs : List Channel) (A B : Nat) (data : CreateChannelData)
    (h : data = ⟨A, B⟩ ∨ data = ⟨B, A⟩) :
    Channel.findOne cs data.userId data.targetUserId = Channel.findOne cs A B := by
  rcases h with rfl | rfl
  · rfl
  · exact findOne_comm cs B A

/-- The `new_channel` push is no answer to the requester. -/
theorem channelAnswers_ioToEmit_new_channel (s : State) (room : Room) (d : ChannelData) (sid : Nat) :
    channelAnswers sid (ioToEmit s room (.new_channel d)) = [] := by
  unfold channelAnswers ioToEmit
  rw [List.filterMap_eq_nil_iff]
  intro e he
  simp only [List.mem_map] at he
  obtain ⟨i, _, rfl⟩ := he
  by_cases h : i = sid <;> simp [h]

/-- Once the channel of the pair is stored, every further request returns it
and leaves the state alone. -/
theorem createChannelSeq_existing (A B : Nat) (c : Channel) :
    ∀ (reqs : List (Nat × CreateChannelData)) (s : State),
      Channel.findOne s.channels A B = some c →
      (∀ r ∈ reqs, r.2 = ⟨A, B⟩ ∨ r.2 = ⟨B, A⟩) →
      createChannelSeq s reqs =
        (s, reqs.map fun r => (r.1, [⟨r.1, .channel_created (.existing c)⟩])) := by
  intro reqs
  induction reqs with
  | nil => intro s _ _; rfl
  | cons r rest ih =>
    intro s hfind hreqs
    have hr := hreqs r (List.mem_cons_self _ _)
    have hlook := findOne_of_request s.channels A B r.2 hr
    have hstep : create_channel s r.1 r.2 = (s, [⟨r.1, .channel_created (.existing c)⟩]) := by
      unfold create_channel
      rw [hlook, hfind]
    have hrest := ih s hfind (fun q hq => hreqs q (List.mem_cons_of_mem _ hq))
    simp only [createChannelSeq, hstep, hrest, List.map_cons]


/-- If at most one row satisfies the condition, the row found is the only
one. -/
theorem filter_eq_singleton_of_find (p : Channel → Bool) (cs : List Channel) (c : Channel)
    (hfind : cs.find? p = some c) (hlen : (cs.filter p).length ≤ 1) : cs.filter p = [c] := by
  have hhead : (cs.filter p).head? = some c := by rw [List.filter_head?]; exact hfind
  match hf : cs.filter p, hhead, hlen with
  | [], hh, _ => simp at hh
  | [x], hh, _ => simp at hh; rw [hh]
  | _ :: _ :: _, _, hl => simp at hl

/-- The result of `create_channel` when no channel of the pair is stored and
both users are. -/
theorem create_channel_eq_created (s : State) (sid : Nat) (data : CreateChannelData) (u t : User)
    (hnone : Channel.findOne s.channels data.userId data.targetUserId = none)
    (hu : User.findByPk s.users data.userId = some u)
    (ht : User.findByPk s.users data.targetUserId = some t) :
    create_channel s sid data =
      (socketJoin { s with channels := s.channels ++
          [{ id := nextId (s.channels.map fun c => c.id), user1Id := data.userId,
             user2Id := data.targetUserId, lastMessageId := none, lastMessageTime := none }] }
          sid (.channel (nextId (s.channels.map fun c => c.id))),
       ioToEmit (socketJoin { s with channels := s.channels ++
          [{ id := nextId (s.channels.map fun c => c.id), user1Id := data.userId,
             user2Id := data.targetUserId, lastMessageId := none, lastMessageTime := none }] }
          sid (.channel (nextId (s.channels.map fun c => c.id))))
          (.user data.targetUserId)
          (.new_channel { id := nextId (s.channels.map fun c => c.id), name := t.username,
                          avatar := t.avatar, online := t.online, lastMessage := none,
                          lastMessageTime := none }) ++
        [⟨sid, .channel_created (.created
            { id := nextId (s.channels.map fun c => c.id), name := t.username,
              avatar := t.avatar, online := t.online, lastMessage := none,
              lastMessageTime := none })⟩]) := by
  unfold create_channel
  simp [Channel.create, hnone, hu, ht]

/-- A request for a pair of stored users without a channel appends one channel
of that pair and answers its id. -/
theorem create_channel_fresh (s : State) (sid A B : Nat) (data : CreateChannelData)
    (hdata : data = ⟨A, B⟩ ∨ data = ⟨B, A⟩)
    (hA : (User.findByPk s.users A).isSome) (hB : (User.findByPk s.users B).isSome)
    (hnone : Channel.findOne s.channels A B = none) :
    ∃ c : Channel, Channel.pairMatch A B c = true ∧
      (create_channel s sid data).1.channels = s.channels ++ [c] ∧
      channelAnswers sid (create_channel s sid data).2 = [some c.id] := by
  have hlook := findOne_of_request s.channels A B data hdata
  have hu1 : (User.findByPk s.users data.userId).isSome := by
    rcases hdata with rfl | rfl <;> assumption
  have hu2 : (User.findByPk s.users data.targetUserId).isSome := by
    rcases hdata with rfl | rfl <;> assumption
  obtain ⟨u, hu⟩ := Option.isSome_iff_exists.mp hu1
  obtain ⟨t, ht⟩ := Option.isSome_iff_exists.mp hu2
  refine ⟨{ id := nextId (s.channels.map fun c => c.id), user1Id := data.userId,
            user2Id := data.targetUserId, lastMessageId := none, lastMessageTime := none }, ?_, ?_⟩
  · rcases hdata with rfl | rfl <;> simp [Channel.pairMatch]
  · rw [create_channel_eq_created s sid data u t (hlook.trans hnone) hu ht]
    refine ⟨rfl, ?_⟩
    have hnew := channelAnswers_ioToEmit_new_channel
    unfold channelAnswers at hnew ⊢
    rw [List.filterMap_append, hnew]
    simp [ChannelCreated.id]

/-! ## Channel creation -/

/-- C1: in a store with at most one channel per unordered pair, any non-empty
sequence of `create_channel` requests for the stored users `A` and `B`, in
either argument order and handled one after the other, answers every request
with `channel_created` carrying one and the same channel id, and afterwards
the store holds exactly one channel whose participants are `A` and `B`. -/
theorem create_channel_idempotent (s : State) (A B : Nat)
    (reqs : List (Nat × CreateChannelData))
    (hA : (User.findByPk s.users A).isSome) (hB : (User.findByPk s.users B).isSome)
    (huniq : ∀ a b, (s.channels.filter (Channel.pairMatch a b)).length ≤ 1)
    (hreqs : ∀ r ∈ reqs, r.2 = ⟨A, B⟩ ∨ r.2 = ⟨B, A⟩) (hne : reqs ≠ []) :
    ∃ c : Channel,
      ((createChannelSeq s reqs).2.map fun p => p.1) = (reqs.map fun r => r.1) ∧
      (∀ p ∈ (createChannelSeq s reqs).2, channelAnswers p.1 p.2 = [some c.id]) ∧
      (createChannelSeq s reqs).1.channels.filter (Channel.pairMatch A B) = [c] := by
  have hexisting : ∀ (t : State) (c : Channel) (qs : List (Nat × CreateChannelData)),
      Channel.findOne t.channels A B = some c → (∀ r ∈ qs, r.2 = ⟨A, B⟩ ∨ r.2 = ⟨B, A⟩) →
      ((createChannelSeq t qs).2.map fun p => p.1) = (qs.map fun r => r.1) ∧
      (∀ p ∈ (createChannelSeq t qs).2, channelAnswers p.1 p.2 = [some c.id]) ∧
      (createChannelSeq t qs).1 = t := by
    intro t c qs hfind hqs
    rw [createChannelSeq_existing A B c qs t hfind hqs]
    refine ⟨by simp, ?_, rfl⟩
    intro p hp
    simp only [List.mem_map] at hp
    obtain ⟨q, _, rfl⟩ := hp
    simp [channelAnswers, ChannelCreated.id]
  cases hfind : Channel.findOne s.channels A B with
  | some c =>
    obtain ⟨h1, h2, h3⟩ := hexisting s c reqs hfind hreqs
    refine ⟨c, h1, h2, ?_⟩
    rw [h3]
    exact filter_eq_singleton_of_find _ _ _ hfind (huniq A B)
  | none =>
    match reqs, hne, hreqs with
    | r :: rest, _, hreqs =>
      have hr := hreqs r (List.mem_cons_self _ _)
      obtain ⟨c, hc, hch, hans⟩ := create_channel_fresh s r.1 A B r.2 hr hA hB hfind
      have hfilter : s.channels.filter (Channel.pairMatch A B) = [] := by
        rw [List.filter_eq_nil_iff]
        intro x hx
        have := List.find?_eq_none.mp hfind x hx
        simpa using this
      have hfind1 : Channel.findOne (create_channel s r.1 r.2).1.channels A B = some c := by
        unfold Channel.findOne at hfind ⊢
        rw [hch, List.find?_append, hfind]
        simp [hc]
      obtain ⟨h1, h2, h3⟩ := hexisting (create_channel s r.1 r.2).1 c rest hfind1
        (fun q hq => hreqs q (List.mem_cons_of_mem _ hq))
      refine ⟨c, ?_, ?_, ?_⟩
      · simp [createChannelSeq, h1]
      · intro p hp
        simp only [createChannelSeq, List.mem_cons] at hp
        rcases hp with rfl | hp
        · exact hans
        · exact h2 p hp
      · simp only [createChannelSeq]
        rw [h3, hch, List.filter_append, hfilter]
        simp [hc]

/-- C1 at the sample store: two sockets ask for the pair of users 1 and 2 in
both orders, three requests in all. -/
theorem create_channel_idempotent_witness :
    ∃ c : Channel,
      ((createChannelSeq sampleState [(10, ⟨1, 2⟩), (20, ⟨2, 1⟩), (10, ⟨2, 1⟩)]).2.map
          fun p => p.1) = [10, 20, 10] ∧
      (∀ p ∈ (createChannelSeq sampleState [(10, ⟨1, 2⟩), (20, ⟨2, 1⟩), (10, ⟨2, 1⟩)]).2,
          channelAnswers p.1 p.2 = [some c.id]) ∧
      (createChannelSeq sampleState
          [(10, ⟨1, 2⟩), (20, ⟨2, 1⟩), (10, ⟨2, 1⟩)]).1.channels.filter
        (Channel.pairMatch 1 2) = [c] :=
  create_channel_idempotent sampleState 1 2 [(10, ⟨1, 2⟩), (20, ⟨2, 1⟩), (10, ⟨2, 1⟩)]
    (by decide) (by decide) (fun _ _ => Nat.zero_le _) (by decide) (by decide)

/-! ## Self-targeted channel creation -/

/-- C2 does not hold: on the sample store a request of user 1 for a channel
with user 1 is answered with `channel_created` carrying id 1, not with an
error, and a channel with `user1Id = user2Id = 1` is stored. -/
theorem create_channel_self_counterexample :
    channelAnswers 10 (create_channel sampleState 10 ⟨1, 1⟩).2 = [some 1] ∧
    (create_channel sampleState 10 ⟨1, 1⟩).1.channels = [⟨1, 1, 1, none, none⟩] := by
  decide

/-- C2 as amended: a request with `userId = targetUserId = U` is handled like
any other pair.  A stored channel of `U` with `U` is returned; without one, the
request fails with `channel_error` and leaves the state as it was exactly when
`U` is not a stored user, and for a stored user `U` a channel with
`user1Id = user2Id = U` is added and its id answered in `channel_created`. -/
theorem create_channel_self (s : State) (sid U : Nat) :
    (∀ c, Channel.findOne s.channels U U = some c →
      create_channel s sid ⟨U, U⟩ = (s, [⟨sid, .channel_created (.existing c)⟩])) ∧
    (Channel.findOne s.channels U U = none → User.findByPk s.users U = none →
      create_channel s sid ⟨U, U⟩ = (s, [⟨sid, .channel_error⟩])) ∧
    (Channel.findOne s.channels U U = none → (User.findByPk s.users U).isSome →
      ∃ c : Channel, c.user1Id = U ∧ c.user2Id = U ∧
        (create_channel s sid ⟨U, U⟩).1.channels = s.channels ++ [c] ∧
        channelAnswers sid (create_channel s sid ⟨U, U⟩).2 = [some c.id]) := by
  refine ⟨?_, ?_, ?_⟩
  · intro c hc
    simp [create_channel, hc]
  · intro hnone hu
    simp [create_channel, hnone, Channel.create, hu]
  · intro hnone hu
    obtain ⟨c, hc, hch, hans⟩ := create_channel_fresh s sid U U ⟨U, U⟩ (Or.inl rfl) hu hu hnone
    have hpair : c.user1Id = U ∧ c.user2Id = U := by simpa [Channel.pairMatch] using hc
    exact ⟨c, hpair.1, hpair.2, hch, hans⟩

/-- The amended C2 at the sample store: user 1 is stored and has no channel
with itself, so the request adds one. -/
theorem create_channel_self_witness :
    ∃ c : Channel, c.user1Id = 1 ∧ c.user2Id = 1 ∧
      (create_channel sampleState 10 ⟨1, 1⟩).1.channels = sampleState.channels ++ [c] ∧
      channelAnswers 10 (create_channel sampleState 10 ⟨1, 1⟩).2 = [some c.id] :=
  (create_channel_self sampleState 10 1).2.2 (by decide) (by decide)

/-! ## Sending a message -/

/-- Every stored key is below the next key. -/
theorem nextId_gt (ids : List Nat) : ∀ x ∈ ids, x < nextId ids := by
  induction ids with
  | nil => intro x hx; simp at hx
  | cons a rest ih =>
    intro x hx
    simp only [nextId, List.foldr_cons] at ih ⊢
    rcases List.mem_cons.mp hx with rfl | h
    · omega
    · have := ih x h
      omega

/-- The key of the next message is the key of no stored message. -/
theorem nextId_ne_of_mem (ms : List Message) (x : Message) (hx : x ∈ ms) :
    x.id ≠ nextId (ms.map fun m => m.id) :=
  Nat.ne_of_lt (nextId_gt _ _ (List.mem_map_of_mem _ hx))

/-- The row and store produced by a successful `Message.create`. -/
theorem Message.create_eq_some {s : State} {content : Option String} {userId channelId now : Nat}
    {m : Message} {s1 : State} (h : Message.create s content userId channelId now = some (m, s1)) :
    (∃ text, content = some text ∧ m.content = storeText text) ∧
    m = ⟨nextId (s.messages.map fun x => x.id), m.content, userId, channelId, false, now⟩ ∧
    s1 = { s with messages := s.messages ++ [m] } ∧
    (User.findByPk s.users userId).isSome := by
  unfold Message.create at h
  cases content with
  | none => simp at h
  | some text =>
    simp only at h
    split at h
    · rename_i hfk
      simp only [Option.some.injEq, Prod.mk.injEq] at h
      obtain ⟨rfl, rfl⟩ := h
      exact ⟨⟨text, rfl, rfl⟩, rfl, rfl, hfk⟩
    · simp at h

/-- A text without U+0000 is stored as it is. -/
theorem storeText_of_no_null (text : String) (h : ∀ c ∈ text.data, c.toNat ≠ 0) :
    storeText text = text := by
  have hdata : ∀ l : List Char, (∀ c ∈ l, c.toNat ≠ 0) →
      (l.flatMap fun c => if c.toNat = 0 then [Char.ofNat 92, Char.ofNat 48] else [c]) = l := by
    intro l
    induction l with
    | nil => intro _; rfl
    | cons a rest ih =>
      intro hl
      rw [List.flatMap_cons, if_neg (hl a (List.mem_cons_self _ _)),
        ih fun c hc => hl c (List.mem_cons_of_mem _ hc)]
      rfl
  unfold storeText
  rw [hdata text.data h]

/-- Looking up the key of a row appended with a fresh key finds that row. -/
theorem find_append_fresh (ms : List Message) (m : Message)
    (hfresh : ∀ x ∈ ms, x.id ≠ m.id) :
    (ms ++ [m]).find? (fun x => decide (x.id = m.id)) = some m := by
  rw [List.find?_append]
  have : ms.find? (fun x => decide (x.id = m.id)) = none := by
    rw [List.find?_eq_none]
    intro x hx
    simpa using hfresh x hx
  rw [this]
  simp

/-- Marking a freshly appended row delivered leaves the older rows alone. -/
theorem map_deliver_append_fresh (ms : List Message) (m : Message)
    (hfresh : ∀ x ∈ ms, x.id ≠ m.id) :
    (ms ++ [m]).map (fun x => if x.id = m.id then { x with delivered := true } else x) =
      ms ++ [{ m with delivered := true }] := by
  rw [List.map_append]
  congr 1
  · conv_rhs => rw [← List.map_id ms]
    apply List.map_congr_left
    intro x hx
    simp [hfresh x hx]
  · simp

/-- What `send_message` does once `Message.create` has stored the row `m`. -/
theorem send_message_of_create (s : State) (sid : Nat) (data : SendMessageData) (now : Nat)
    (m : Message) (s1 : State)
    (h : Message.create s data.content data.userId data.channelId now = some (m, s1)) :
    send_message s sid data now =
      if 1 < (fetchSockets s (.channel data.channelId)).length then
        ({ s with
            messages := s.messages ++ [{ m with delivered := true }]
            channels := s.channels.map fun c =>
              if c.id = data.channelId then
                { c with lastMessageId := some m.id, lastMessageTime := some m.createdAt }
              else c },
          ((fetchSockets s (.channel data.channelId)).map fun k =>
              (⟨k, .receive_message (some (includeUser s.users m))⟩ : Emit)) ++
            (fetchSockets s (.channel data.channelId)).map fun k =>
              (⟨k, .message_delivered m.id data.channelId⟩ : Emit))
      else
        ({ s with
            messages := s.messages ++ [m]
            channels := s.channels.map fun c =>
              if c.id = data.channelId then
                { c with lastMessageId := some m.id, lastMessageTime := some m.createdAt }
              else c },
          (fetchSockets s (.channel data.channelId)).map fun k =>
            (⟨k, .receive_message (some (includeUser s.users m))⟩ : Emit)) := by
  obtain ⟨_, hm, rfl, _⟩ := Message.create_eq_some h
  have hid : m.id = nextId (s.messages.map fun x => x.id) := by rw [hm]
  have hfresh : ∀ x ∈ s.messages, x.id ≠ m.id := fun x hx => by
    rw [hid]; exact nextId_ne_of_mem s.messages x hx
  unfold send_message
  rw [h]
  simp only [Message.findByPk, setLastMessage, markDelivered, ioToEmit, fetchSockets,
    find_append_fresh s.messages m hfresh, map_deliver_append_fresh s.messages m hfresh,
    Option.map_some', gt_iff_lt]

/-- A broadcast of one event, filtered by an event name. -/
theorem emitsNamed_map (name : String) (l : List Nat) (ev : Outbound) :
    emitsNamed name (l.map fun k => (⟨k, ev⟩ : Emit)) =
      if ev.name = name then l.map fun k => (⟨k, ev⟩ : Emit) else [] := by
  unfold emitsNamed
  split
  · rename_i h
    rw [List.filter_eq_self]
    intro e he
    obtain ⟨k, _, rfl⟩ := List.mem_map.mp he
    simpa using h
  · rename_i h
    rw [List.filter_eq_nil_iff]
    intro e he
    obtain ⟨k, _, rfl⟩ := List.mem_map.mp he
    simpa using h

/-- Filtering by event name distributes over concatenation. -/
theorem emitsNamed_append (name : String) (l₁ l₂ : List Emit) :
    emitsNamed name (l₁ ++ l₂) = emitsNamed name l₁ ++ emitsNamed name l₂ := by
  unfold emitsNamed
  exact List.filter_append _ _

/-- The sockets of a room are the ids of the live sockets joined to it. -/
theorem mem_fetchSockets (s : State) (room : Room) (k : Nat) :
    k ∈ fetchSockets s room ↔ ∃ sock ∈ s.sockets, sock.id = k ∧ room ∈ sock.rooms := by
  unfold fetchSockets
  simp only [List.mem_dedup, List.mem_map, List.mem_filter, decide_eq_true_eq]
  constructor
  · rintro ⟨sock, ⟨h1, h2⟩, rfl⟩
    exact ⟨sock, h1, rfl, h2⟩
  · rintro ⟨sock, h1, rfl, h2⟩
    exact ⟨sock, ⟨h1, h2⟩, rfl⟩

/-- Each socket of a room is listed once. -/
theorem nodup_fetchSockets (s : State) (room : Room) : (fetchSockets s room).Nodup :=
  List.nodup_dedup _

/-- A request not answered with `message_error` has stored its row. -/
theorem send_message_created (s : State) (sid : Nat) (data : SendMessageData) (now : Nat)
    (hok : (⟨sid, .message_error⟩ : Emit) ∉ (send_message s sid data now).2) :
    ∃ m : Message, Message.create s data.content data.userId data.channelId now =
      some (m, { s with messages := s.messages ++ [m] }) := by
  cases h : Message.create s data.content data.userId data.channelId now with
  | none =>
    exfalso
    apply hok
    simp [send_message, h]
  | some p =>
    obtain ⟨m, s1⟩ := p
    obtain ⟨_, _, rfl, _⟩ := Message.create_eq_some h
    exact ⟨m, rfl⟩

/-- C3 does not hold: the empty string is stored like any other content.  On
the sample store the request with content "" adds the message, moves the
last-message pointer of the channel and is broadcast to the joined sockets. -/
theorem send_message_empty_counterexample :
    (send_message sampleJoinedState 10 ⟨some "", 1, 1⟩ 100).1.messages =
      [⟨1, "", 1, 1, true, 100⟩] ∧
    (send_message sampleJoinedState 10 ⟨some "", 1, 1⟩ 100).1.channels =
      [⟨1, 1, 2, some 1, some 100⟩] ∧
    (emitsNamed "receive_message"
      (send_message sampleJoinedState 10 ⟨some "", 1, 1⟩ 100).2).map (fun e => e.target) =
        [10, 20] ∧
    emitsNamed "message_error" (send_message sampleJoinedState 10 ⟨some "", 1, 1⟩ 100).2 = [] := by
  decide

/-- C3 as amended: `send_message` fails on content when the content is absent
(null): the requester alone is answered, with `message_error`, and the state,
hence every message and every last-message pointer, is as before.  The empty
string is no such failure: with a stored author and channel it is appended to
the messages. -/
theorem send_message_null_content (s : State) (sid userId channelId now : Nat) :
    send_message s sid ⟨none, userId, channelId⟩ now = (s, [⟨sid, .message_error⟩]) ∧
    ((User.findByPk s.users userId).isSome →
      (s.channels.find? fun c => decide (c.id = channelId)).isSome →
      (send_message s sid ⟨some "", userId, channelId⟩ now).1.messages.map
          (fun m => m.content) = s.messages.map (fun m => m.content) ++ [""]) := by
  refine ⟨rfl, ?_⟩
  intro hu _
  have hcreate : Message.create s (some "") userId channelId now =
      some (⟨nextId (s.messages.map fun x => x.id), "", userId, channelId, false, now⟩,
        { s with messages := s.messages ++
            [⟨nextId (s.messages.map fun x => x.id), "", userId, channelId, false, now⟩] }) := by
    have hempty : storeText "" = "" := rfl
    simp [Message.create, hu, hempty]
  rw [send_message_of_create s sid ⟨some "", userId, channelId⟩ now _ _ hcreate]
  split <;> simp

/-- The amended C3 at the sample store, for its second part. -/
theorem send_message_null_content_witness :
    (send_message sampleJoinedState 10 ⟨some "", 1, 1⟩ 100).1.messages.map
        (fun m => m.content) = sampleJoinedState.messages.map (fun m => m.content) ++ [""] :=
  (send_message_null_content sampleJoinedState 10 1 1 100).2 (by decide) (by decide)

/-- C4 does not hold for a content with the character U+0000: socket 10 sends
the three characters a, U+0000, b on channel 1 and is not answered with
`message_error`; the row the store gains, and the row broadcast with
`receive_message`, hold the four characters a, backslash, zero, b, which is not
the content of the request. -/
theorem send_message_null_character_counterexample :
    emitsNamed "message_error"
      (send_message sampleJoinedState 10 ⟨some ⟨['a', Char.ofNat 0, 'b']⟩, 1, 1⟩ 100).2 = [] ∧
    (send_message sampleJoinedState 10 ⟨some ⟨['a', Char.ofNat 0, 'b']⟩, 1, 1⟩ 100).1.messages =
      [⟨1, ⟨['a', Char.ofNat 92, Char.ofNat 48, 'b']⟩, 1, 1, true, 100⟩] ∧
    (⟨['a', Char.ofNat 92, Char.ofNat 48, 'b']⟩ : String) ≠ ⟨['a', Char.ofNat 0, 'b']⟩ ∧
    (emitsNamed "receive_message"
      (send_message sampleJoinedState 10 ⟨some ⟨['a', Char.ofNat 0, 'b']⟩, 1, 1⟩ 100).2).map
        (fun e => e.event) =
      [.receive_message (some ⟨⟨1, ⟨['a', Char.ofNat 92, Char.ofNat 48, 'b']⟩, 1, 1, false, 100⟩,
          some ⟨1, "ann", none⟩⟩),
       .receive_message (some ⟨⟨1, ⟨['a', Char.ofNat 92, Char.ofNat 48, 'b']⟩, 1, 1, false, 100⟩,
          some ⟨1, "ann", none⟩⟩)] := by
  decide

/-- C4 as amended: a `send_message` that is not answered with `message_error`
appends exactly one row `m` to the messages, with the author and channel of
the request and, as content, the text of the request as `storeText` writes it
(each U+0000 replaced by backslash and zero), which is the text of the request
itself when that holds no U+0000; `m` is created with `delivered = false` under
a key no stored message has; the rows stored before are unchanged (the new row
may end up marked delivered); every channel with the id of the request has its
`lastMessageId` and `lastMessageTime` set to the id and `createdAt` of `m`, and
every other channel is unchanged. -/
theorem send_message_persists (s : State) (sid : Nat) (data : SendMessageData) (now : Nat)
    (hok : (⟨sid, .message_error⟩ : Emit) ∉ (send_message s sid data now).2) :
    ∃ (m : Message) (text : String),
      data.content = some text ∧ m.content = storeText text ∧
      ((∀ c ∈ text.data, c.toNat ≠ 0) → m.content = text) ∧
      m.userId = data.userId ∧
      m.channelId = data.channelId ∧ m.delivered = false ∧ m.createdAt = now ∧
      (∀ x ∈ s.messages, x.id ≠ m.id) ∧
      ((send_message s sid data now).1.messages = s.messages ++ [m] ∨
        (send_message s sid data now).1.messages = s.messages ++ [{ m with delivered := true }]) ∧
      (send_message s sid data now).1.channels = s.channels.map (fun c =>
        if c.id = data.channelId then
          { c with lastMessageId := some m.id, lastMessageTime := some m.createdAt }
        else c) := by
  obtain ⟨m, hm⟩ := send_message_created s sid data now hok
  obtain ⟨⟨text, hc, hstored⟩, hrow, _, _⟩ := Message.create_eq_some hm
  have hfresh : ∀ x ∈ s.messages, x.id ≠ m.id := fun x hx => by
    rw [hrow]; exact nextId_ne_of_mem s.messages x hx
  refine ⟨m, text, hc, hstored, fun hno => hstored.trans (storeText_of_no_null text hno),
    by rw [hrow], by rw [hrow], by rw [hrow], by rw [hrow], hfresh, ?_, ?_⟩
  · rw [send_message_of_create s sid data now m _ hm]
    split
    · exact Or.inr rfl
    · exact Or.inl rfl
  · rw [send_message_of_create s sid data now m _ hm]
    split <;> rfl

/-- The amended C4 at the sample store: socket 10 sends "hi" on channel 1. -/
theorem send_message_persists_witness :
    ∃ (m : Message) (text : String),
      (some "hi" : Option String) = some text ∧ m.content = storeText text ∧
      ((∀ c ∈ text.data, c.toNat ≠ 0) → m.content = text) ∧
      m.userId = 1 ∧
      m.channelId = 1 ∧ m.delivered = false ∧ m.createdAt = 100 ∧
      (∀ x ∈ sampleJoinedState.messages, x.id ≠ m.id) ∧
      ((send_message sampleJoinedState 10 ⟨some "hi", 1, 1⟩ 100).1.messages =
          sampleJoinedState.messages ++ [m] ∨
        (send_message sampleJoinedState 10 ⟨some "hi", 1, 1⟩ 100).1.messages =
          sampleJoinedState.messages ++ [{ m with delivered := true }]) ∧
      (send_message sampleJoinedState 10 ⟨some "hi", 1, 1⟩ 100).1.channels =
        sampleJoinedState.channels.map (fun c =>
          if c.id = 1 then
            { c with lastMessageId := some m.id, lastMessageTime := some m.createdAt }
          else c) :=
  send_message_persists sampleJoinedState 10 ⟨some "hi", 1, 1⟩ 100 (by decide)

/-- C5 does not hold as worded: the event is emitted under the name
`receive_message`; no event named `message_received` is emitted by a
successful `send_message`. -/
theorem send_message_event_name_counterexample :
    emitsNamed "message_received"
      (send_message sampleJoinedState 10 ⟨some "hi", 1, 1⟩ 100).2 = [] ∧
    (emitsNamed "receive_message"
      (send_message sampleJoinedState 10 ⟨some "hi", 1, 1⟩ 100).2).map (fun e => e.target) =
        [10, 20] := by
  decide

/-- C5 as amended: a `send_message` that is not answered with `message_error`
emits the event named `receive_message`, carrying the created row `m` together
with the id, username and avatar of its author, once to each socket joined to
the room of the channel and to no other socket. -/
theorem send_message_broadcast (s : State) (sid : Nat) (data : SendMessageData) (now : Nat)
    (hok : (⟨sid, .message_error⟩ : Emit) ∉ (send_message s sid data now).2) :
    ∃ (m : Message) (author : User),
      Message.create s data.content data.userId data.channelId now =
        some (m, { s with messages := s.messages ++ [m] }) ∧
      User.findByPk s.users data.userId = some author ∧ author.id = data.userId ∧
      emitsNamed "receive_message" (send_message s sid data now).2 =
        (fetchSockets s (.channel data.channelId)).map (fun k =>
          (⟨k, .receive_message
            (some ⟨m, some ⟨author.id, author.username, author.avatar⟩⟩)⟩ : Emit)) ∧
      (fetchSockets s (.channel data.channelId)).Nodup ∧
      ∀ k, k ∈ fetchSockets s (.channel data.channelId) ↔
        ∃ sock ∈ s.sockets, sock.id = k ∧ Room.channel data.channelId ∈ sock.rooms := by
  obtain ⟨m, hm⟩ := send_message_created s sid data now hok
  obtain ⟨_, hrow, _, hu⟩ := Message.create_eq_some hm
  obtain ⟨author, hauthor⟩ := Option.isSome_iff_exists.mp hu
  have hauthorId : author.id = data.userId := by
    simpa [User.findByPk] using List.find?_some hauthor
  have hmu : m.userId = data.userId := by rw [hrow]
  have hinc : includeUser s.users m = ⟨m, some ⟨author.id, author.username, author.avatar⟩⟩ := by
    simp [includeUser, hmu, hauthor]
  refine ⟨m, author, hm, hauthor, hauthorId, ?_, nodup_fetchSockets _ _, mem_fetchSockets _ _⟩
  rw [send_message_of_create s sid data now m _ hm, hinc]
  split
  · simp [emitsNamed_append, emitsNamed_map, Outbound.name]
  · simp [emitsNamed_map, Outbound.name]

/-- The amended C5 at the sample store: sockets 10 and 20 are joined. -/
theorem send_message_broadcast_witness :
    ∃ (m : Message) (author : User),
      Message.create sampleJoinedState (some "hi") 1 1 100 =
        some (m, { sampleJoinedState with messages := sampleJoinedState.messages ++ [m] }) ∧
      User.findByPk sampleJoinedState.users 1 = some author ∧ author.id = 1 ∧
      emitsNamed "receive_message" (send_message sampleJoinedState 10 ⟨some "hi", 1, 1⟩ 100).2 =
        (fetchSockets sampleJoinedState (.channel 1)).map (fun k =>
          (⟨k, .receive_message
            (some ⟨m, some ⟨author.id, author.username, author.avatar⟩⟩)⟩ : Emit)) ∧
      (fetchSockets sampleJoinedState (.channel 1)).Nodup ∧
      ∀ k, k ∈ fetchSockets sampleJoinedState (.channel 1) ↔
        ∃ sock ∈ sampleJoinedState.sockets, sock.id = k ∧ Room.channel 1 ∈ sock.rooms :=
  send_message_broadcast sampleJoinedState 10 ⟨some "hi", 1, 1⟩ 100 (by decide)

/-- C6: after a `send_message` that is not answered with `message_error`, with
`m` the created row: when more than one distinct socket is joined to the room
of the channel, the row is stored with `delivered = true` and
`message_delivered` with the id of `m` and the channel id is emitted once to
each joined socket; otherwise the row is stored as created, with
`delivered = false`, and no `message_delivered` is emitted. -/
theorem send_message_delivered_iff (s : State) (sid : Nat) (data : SendMessageData) (now : Nat)
    (hok : (⟨sid, .message_error⟩ : Emit) ∉ (send_message s sid data now).2) :
    ∃ m : Message,
      Message.create s data.content data.userId data.channelId now =
        some (m, { s with messages := s.messages ++ [m] }) ∧
      m.delivered = false ∧
      (1 < (fetchSockets s (.channel data.channelId)).length →
        (send_message s sid data now).1.messages = s.messages ++ [{ m with delivered := true }] ∧
        emitsNamed "message_delivered" (send_message s sid data now).2 =
          (fetchSockets s (.channel data.channelId)).map (fun k =>
            (⟨k, .message_delivered m.id data.channelId⟩ : Emit))) ∧
      (¬ 1 < (fetchSockets s (.channel data.channelId)).length →
        (send_message s sid data now).1.messages = s.messages ++ [m] ∧
        emitsNamed "message_delivered" (send_message s sid data now).2 = []) := by
  obtain ⟨m, hm⟩ := send_message_created s sid data now hok
  obtain ⟨_, hrow, _, _⟩ := Message.create_eq_some hm
  refine ⟨m, hm, by rw [hrow], ?_, ?_⟩
  · intro hn
    rw [send_message_of_create s sid data now m _ hm, if_pos hn]
    refine ⟨rfl, ?_⟩
    simp [emitsNamed_append, emitsNamed_map, Outbound.name]
  · intro hn
    rw [send_message_of_create s sid data now m _ hm, if_neg hn]
    exact ⟨rfl, by simp [emitsNamed_map, Outbound.name]⟩

/-- C6 at the sample store, where two sockets are joined to channel 1. -/
theorem send_message_delivered_iff_witness :
    ∃ m : Message,
      Message.create sampleJoinedState (some "hi") 1 1 100 =
        some (m, { sampleJoinedState with messages := sampleJoinedState.messages ++ [m] }) ∧
      m.delivered = false ∧
      (1 < (fetchSockets sampleJoinedState (.channel 1)).length →
        (send_message sampleJoinedState 10 ⟨some "hi", 1, 1⟩ 100).1.messages =
          sampleJoinedState.messages ++ [{ m with delivered := true }] ∧
        emitsNamed "message_delivered"
            (send_message sampleJoinedState 10 ⟨some "hi", 1, 1⟩ 100).2 =
          (fetchSockets sampleJoinedState (.channel 1)).map (fun k =>
            (⟨k, .message_delivered m.id 1⟩ : Emit))) ∧
      (¬ 1 < (fetchSockets sampleJoinedState (.channel 1)).length →
        (send_message sampleJoinedState 10 ⟨some "hi", 1, 1⟩ 100).1.messages =
          sampleJoinedState.messages ++ [m] ∧
        emitsNamed "message_delivered"
          (send_message sampleJoinedState 10 ⟨some "hi", 1, 1⟩ 100).2 = []) :=
  send_message_delivered_iff sampleJoinedState 10 ⟨some "hi", 1, 1⟩ 100 (by decide)

/-! ## Joining a channel -/

/-- A map over the sockets that keeps ids and bound users keeps every lookup
of the bound user. -/
theorem find_currentUserId_map (f : Socket → Socket) (hid : ∀ a, (f a).id = a.id)
    (hcu : ∀ a, (f a).currentUserId = a.currentUserId) (k : Nat) (l : List Socket) :
    (((l.map f).find? fun x => decide (x.id = k)).bind fun x => x.currentUserId) =
      ((l.find? fun x => decide (x.id = k)).bind fun x => x.currentUserId) := by
  induction l with
  | nil => rfl
  | cons a rest ih =>
    rw [List.map_cons, List.find?_cons, List.find?_cons, hid a]
    cases decide (a.id = k) with
    | true => exact hcu a
    | false => exact ih

/-- Joining a room does not change the user a socket is bound to. -/
theorem currentUserId_socketJoin (s : State) (sid : Nat) (room : Room) (k : Nat) :
    currentUserId (socketJoin s sid room) k = currentUserId s k := by
  unfold currentUserId socketJoin
  apply find_currentUserId_map
  · intro a; split <;> rfl
  · intro a; split <;> rfl

/-- The store after `join_channel` on a socket bound to the user `U`. -/
theorem join_channel_store (s : State) (sid C U : Nat)
    (hU : currentUserId s sid = some U) (h0 : U ≠ 0) :
    (join_channel s sid C).1.messages = (catchUp s C U).messages ∧
    (join_channel s sid C).1.users = s.users ∧
    (join_channel s sid C).1.channels = s.channels := by
  unfold join_channel
  simp only [currentUserId_socketJoin, hU, h0, ne_eq, not_false_eq_true, if_true]
  exact ⟨rfl, rfl, rfl⟩

/-- The only emission of `join_channel` is one `message_history` to the
joining socket. -/
theorem join_channel_emits (s : State) (sid C : Nat) :
    ∃ history, (join_channel s sid C).2 = [⟨sid, .message_history history⟩] :=
  ⟨_, rfl⟩

/-- C8: for a live socket bound to the user `U` (a non-zero id, as every
primary key of `Users` is), `join_channel` on channel `C` sets
`delivered = true` on exactly the messages of `C` whose author is not `U` and
whose flag was false; every other message and every other field of the
messages, the users and the channels are unchanged. -/
theorem join_channel_catch_up (s : State) (sid C U : Nat)
    (hU : currentUserId s sid = some U) (h0 : U ≠ 0) :
    (join_channel s sid C).1.messages = s.messages.map (fun m =>
      if m.channelId = C ∧ m.userId ≠ U ∧ m.delivered = false then
        { m with delivered := true } else m) ∧
    (join_channel s sid C).1.users = s.users ∧
    (join_channel s sid C).1.channels = s.channels := by
  have hbound : currentUserId (socketJoin s sid (.channel C)) sid = some U :=
    (currentUserId_socketJoin s sid (.channel C) sid).trans hU
  unfold join_channel
  simp only [hbound, h0, ne_eq, not_false_eq_true, if_true]
  exact ⟨rfl, rfl, rfl⟩

/-- C8 at the sample store: socket 20 of user 2 joins channel 1. -/
theorem join_channel_catch_up_witness :
    (join_channel sampleUndeliveredState 20 1).1.messages =
      sampleUndeliveredState.messages.map (fun m =>
        if m.channelId = 1 ∧ m.userId ≠ 2 ∧ m.delivered = false then
          { m with delivered := true } else m) ∧
    (join_channel sampleUndeliveredState 20 1).1.users = sampleUndeliveredState.users ∧
    (join_channel sampleUndeliveredState 20 1).1.channels = sampleUndeliveredState.channels :=
  join_channel_catch_up sampleUndeliveredState 20 1 2 (by decide) (by decide)

/-- C9, evaluated: socket 20 of user 2 joins channel 1, which holds one
undelivered message of user 1.  The catch-up flips that message to delivered,
and the only emission is `message_history` to socket 20: no
`message_delivered` is emitted. -/
theorem join_channel_no_message_delivered :
    sampleUndeliveredState.messages.map (fun m => m.delivered) = [false] ∧
    (join_channel sampleUndeliveredState 20 1).1.messages.map (fun m => m.delivered) = [true] ∧
    emitsNamed "message_delivered" (join_channel sampleUndeliveredState 20 1).2 = [] ∧
    (join_channel sampleUndeliveredState 20 1).2.map (fun e => (e.target, e.event.name)) =
      [(20, "message_history")] := by
  decide

/-! ## The delivered flag along a run -/

/-- Clearing the flag of a row that was just marked delivered gives the row
back. -/
theorem Message.undeliver_deliver (x : Message) (h : x.delivered = false) :
    { ({ x with delivered := true } : Message) with delivered := false } = x := by
  cases x
  simp_all

/-- A new connection leaves the messages alone. -/
theorem connect_messages (s : State) (sid : Nat) : (connect s sid).1.messages = s.messages := by
  unfold connect
  split <;> rfl

/-- `authenticate` leaves the messages alone. -/
theorem authenticate_messages (verify : String → Option Nat) (s : State) (sid : Nat)
    (token : String) : (authenticate verify s sid token).1.messages = s.messages := by
  unfold authenticate
  split <;> rfl

/-- `disconnect` leaves the messages alone. -/
theorem disconnect_messages (s : State) (sid : Nat) : (disconnect s sid).1.messages = s.messages := by
  unfold disconnect
  split
  · split <;> rfl
  · rfl

/-- `create_channel` leaves the messages alone. -/
theorem create_channel_messages (s : State) (sid : Nat) (data : CreateChannelData) :
    (create_channel s sid data).1.messages = s.messages := by
  unfold create_channel
  split
  · rfl
  · split
    · rfl
    · rename_i channel s1 hcreate
      have hs1 : s1.messages = s.messages := by
        unfold Channel.create at hcreate
        split at hcreate
        · simp only [Option.some.injEq, Prod.mk.injEq] at hcreate
          rw [← hcreate.2]
        · simp at hcreate
      split
      · exact hs1
      · exact hs1

/-- The messages after `join_channel`: the catch-up for a socket bound to a
non-zero user id, the messages as they were otherwise. -/
theorem join_channel_messages (s : State) (sid C : Nat) :
    (join_channel s sid C).1.messages =
      match currentUserId s sid with
      | some u => if u ≠ 0 then (catchUp s C u).messages else s.messages
      | none => s.messages := by
  unfold join_channel
  simp only [currentUserId_socketJoin]
  cases currentUserId s sid with
  | none => rfl
  | some u =>
    simp only
    split <;> rfl

/-- One handled event delivers a message only in the three listed ways. -/
theorem step_delivered (verify : String → Option Nat) (st : State) (i : Input) (m : Message)
    (hm : m ∈ (step verify st i).1.messages) (hd : m.delivered = true) :
    m ∈ st.messages ∨ DeliveryCause st i m := by
  cases i with
  | connect sid =>
    left
    simpa [step, connect_messages] using hm
  | authenticate sid token =>
    left
    unfold step at hm
    simp only at hm
    split at hm
    · simpa [authenticate_messages] using hm
    · exact hm
  | create_channel sid data =>
    left
    unfold step at hm
    simp only at hm
    split at hm
    · simpa [create_channel_messages] using hm
    · exact hm
  | disconnect sid =>
    left
    unfold step at hm
    simp only at hm
    split at hm
    · simpa [disconnect_messages] using hm
    · exact hm
  | join_channel sid C =>
    unfold step at hm
    simp only at hm
    split at hm
    · rw [join_channel_messages] at hm
      cases hcur : currentUserId st sid with
      | none => rw [hcur] at hm; exact Or.inl hm
      | some u =>
        rw [hcur] at hm
        simp only at hm
        by_cases h0 : u ≠ 0
        · rw [if_pos h0] at hm
          simp only [catchUp, List.mem_map] at hm
          obtain ⟨x, hx, hxm⟩ := hm
          by_cases hflip : x.channelId = C ∧ x.userId ≠ u ∧ x.delivered = false
          · rw [if_pos hflip] at hxm
            right
            subst hxm
            refine ⟨hflip.1.symm, ⟨u, hcur, h0, fun h => hflip.2.1 h.symm⟩, ?_⟩
            have hback := Message.undeliver_deliver x hflip.2.2
            rw [hback]
            exact hx
          · rw [if_neg hflip] at hxm
            subst hxm
            exact Or.inl hx
        · rw [if_neg h0] at hm
          exact Or.inl hm
    · exact Or.inl hm
  | send_message sid data now =>
    unfold step at hm
    simp only at hm
    split at hm
    · cases hcreate : Message.create st data.content data.userId data.channelId now with
      | none =>
        left
        simpa [send_message, hcreate] using hm
      | some p =>
        obtain ⟨m0, s1⟩ := p
        obtain ⟨_, hrow, _, _⟩ := Message.create_eq_some hcreate
        rw [send_message_of_create st sid data now m0 s1 hcreate] at hm
        by_cases hn : 1 < (fetchSockets st (.channel data.channelId)).length
        · rw [if_pos hn] at hm
          simp only [List.mem_append, List.mem_singleton] at hm
          rcases hm with hm | hm
          · exact Or.inl hm
          · right
            subst hm
            have hc : data.channelId = m0.channelId := by rw [hrow]
            refine ⟨hc, by rw [hrow], by rw [hrow], ?_⟩
            show 1 < (fetchSockets st (.channel m0.channelId)).length
            rw [← hc]; exact hn
        · rw [if_neg hn] at hm
          simp only [List.mem_append, List.mem_singleton] at hm
          rcases hm with hm | hm
          · exact Or.inl hm
          · exfalso
            subst hm
            rw [hrow] at hd
            simp at hd
    · exact Or.inl hm
  | message_seen sid messageId channelId =>
    unfold step at hm
    simp only at hm
    split at hm
    · simp only [message_seen, markDelivered, List.mem_map] at hm
      obtain ⟨x, hx, hxm⟩ := hm
      by_cases hid : x.id = messageId
      · rw [if_pos hid] at hxm
        by_cases hxd : x.delivered = true
        · left
          have : m = x := by subst hxm; cases x; simp_all
          rw [this]; exact hx
        · right
          subst hxm
          refine ⟨hid.symm, ?_⟩
          have hback := Message.undeliver_deliver x (by simpa using hxd)
          rw [hback]
          exact hx
      · rw [if_neg hid] at hxm
        subst hxm
        exact Or.inl hx
    · exact Or.inl hm

/-- Handling one more event at the end of a run. -/
theorem exec_append_singleton (verify : String → Option Nat) (s : State) (run : List Input)
    (i : Input) : exec verify s (run ++ [i]) = (step verify (exec verify s run) i).1 := by
  simp [exec, List.foldl_append]

/-- C7 does not hold: after the sample run the message of user 1 is stored
with `delivered = true`, although in no state along the run a socket bound to
a user other than its author is joined to its channel (both joined sockets
belong to the author). -/
theorem delivered_without_recipient_counterexample :
    ∃ m ∈ (exec sampleVerify sampleChannelState sampleRun).messages,
      m.delivered = true ∧
      ∀ pre ∈ sampleRun.inits,
        joinedByOther (exec sampleVerify sampleChannelState pre) m = false := by
  decide

/-- C7 as amended: in every state reached from a state without delivered
messages, a message has `delivered = true` only if some event of the run
delivered it in one of three ways: the `send_message` that stored it was
handled while more than one socket was joined to its channel; or, while it was
stored undelivered, `join_channel` for its channel arrived on a socket bound to
a (non-zero) user other than its author; or, while it was stored undelivered, a
`message_seen` naming its id was handled. -/
theorem delivered_has_cause (verify : String → Option Nat) (s0 : State)
    (h0 : ∀ m ∈ s0.messages, m.delivered = false) (run : List Input) (m : Message)
    (hm : m ∈ (exec verify s0 run).messages) (hd : m.delivered = true) :
    ∃ pre i post, run = pre ++ i :: post ∧ DeliveryCause (exec verify s0 pre) i m := by
  induction run using List.reverseRecOn with
  | nil =>
    have := h0 m hm
    rw [hd] at this
    exact absurd this (by decide)
  | append_singleton pre i ih =>
    rw [exec_append_singleton] at hm
    rcases step_delivered verify _ i m hm hd with hprev | hcause
    · obtain ⟨p, j, q, hrun, hc⟩ := ih hprev
      exact ⟨p, j, q ++ [i], by rw [hrun]; simp, hc⟩
    · exact ⟨pre, i, [], rfl, hcause⟩

/-- The amended C7 on the sample run. -/
theorem delivered_has_cause_witness :
    ∃ pre i post, sampleRun = pre ++ i :: post ∧
      DeliveryCause (exec sampleVerify sampleChannelState pre) i ⟨1, "hi", 1, 1, true, 100⟩ :=
  delivered_has_cause sampleVerify sampleChannelState (by decide) sampleRun
    ⟨1, "hi", 1, 1, true, 100⟩ (by decide) rfl

/-! ## The first-message scenario -/

/-- A duplicate-free list whose only member is `a` is the list of `a`. -/
theorem eq_singleton_of_nodup_of_mem_iff (l : List Nat) (a : Nat) (hnd : l.Nodup)
    (hmem : ∀ k, k ∈ l ↔ k = a) : l = [a] := by
  match l, hnd, hmem with
  | [], _, hmem => exact absurd ((hmem a).mpr rfl) (List.not_mem_nil a)
  | [x], _, hmem =>
    have : x = a := (hmem x).mp (List.mem_cons_self _ _)
    rw [this]
  | x :: y :: rest, hnd, hmem =>
    have hx : x = a := (hmem x).mp (List.mem_cons_self _ _)
    have hy : y = a := (hmem y).mp (List.mem_cons_of_mem _ (List.mem_cons_self _ _))
    have hne : x ≠ y := by
      intro h
      have := (List.nodup_cons.mp hnd).1
      exact this (h ▸ List.mem_cons_self _ _)
    exact absurd (hx.trans hy.symm) hne

/-- After a live socket joins a room nobody was in, it is the only socket of
that room. -/
theorem fetchSockets_socketJoin_alone (s : State) (sid : Nat) (room : Room)
    (hlive : sid ∈ s.sockets.map (fun k => k.id))
    (hroom : ∀ k ∈ s.sockets, room ∉ k.rooms) :
    fetchSockets (socketJoin s sid room) room = [sid] := by
  apply eq_singleton_of_nodup_of_mem_iff _ _ (nodup_fetchSockets _ _)
  intro k
  rw [mem_fetchSockets]
  simp only [socketJoin, List.mem_map]
  constructor
  · rintro ⟨sock, ⟨a, ha, rfl⟩, hid, hin⟩
    by_cases hj : a.id = sid ∧ room ∉ a.rooms
    · rw [if_pos hj] at hid
      exact hid.symm.trans hj.1
    · rw [if_neg hj] at hin
      exact absurd hin (hroom a ha)
  · rintro rfl
    obtain ⟨a, ha, hid⟩ := List.mem_map.mp hlive
    refine ⟨_, ⟨a, ha, rfl⟩, ?_, ?_⟩
    · rw [if_pos ⟨hid, hroom a ha⟩]; exact hid
    · rw [if_pos ⟨hid, hroom a ha⟩]; simp

/-- C10: in a store without channels or messages that holds users 1 and 2,
with no socket in the room of channel 1: `create_channel` for users 1 and 2 on
the live socket `sid1` answers a new channel id `C`, and `sid1` is then the
only socket joined to `C`; `send_message` of "hi" by user 1 on `C` stores the
message with `delivered = false`; after `join_channel` for `C` on the socket
`sid2` bound to user 2, the history route for `C`, page 1, page size 50 returns
exactly one message, with content "hi" and `delivered = true`. -/
theorem scenario_first_message (users : List User) (sockets : List Socket) (sid1 sid2 now : Nat)
    (hu1 : (User.findByPk users 1).isSome) (hu2 : (User.findByPk users 2).isSome)
    (hlive : sid1 ∈ sockets.map (fun k => k.id))
    (hroom : ∀ k ∈ sockets, Room.channel 1 ∉ k.rooms)
    (h2 : currentUserId ⟨users, [], [], sockets⟩ sid2 = some 2) :
    ∃ C : Nat,
      channelAnswers sid1 (create_channel ⟨users, [], [], sockets⟩ sid1 ⟨1, 2⟩).2 = [some C] ∧
      (create_channel ⟨users, [], [], sockets⟩ sid1 ⟨1, 2⟩).1.channels.map (fun c => c.id) = [C] ∧
      fetchSockets (create_channel ⟨users, [], [], sockets⟩ sid1 ⟨1, 2⟩).1 (.channel C) = [sid1] ∧
      (send_message (create_channel ⟨users, [], [], sockets⟩ sid1 ⟨1, 2⟩).1 sid1
          ⟨some "hi", 1, C⟩ now).1.messages = [⟨1, "hi", 1, C, false, now⟩] ∧
      (getChannelMessages
        (join_channel
          (send_message (create_channel ⟨users, [], [], sockets⟩ sid1 ⟨1, 2⟩).1 sid1
            ⟨some "hi", 1, C⟩ now).1 sid2 C).1 C 1 50).map
          (fun page => page.map fun r => r.message) = some [⟨1, "hi", 1, C, true, now⟩] := by
  obtain ⟨u1, hu1'⟩ := Option.isSome_iff_exists.mp hu1
  obtain ⟨u2, hu2'⟩ := Option.isSome_iff_exists.mp hu2
  have hcreate := create_channel_eq_created ⟨users, [], [], sockets⟩ sid1 ⟨1, 2⟩ u1 u2 rfl hu1' hu2'
  have hnext : nextId (([] : List Channel).map fun c => c.id) = 1 := rfl
  simp only [hnext, List.nil_append] at hcreate
  have hfetch := fetchSockets_socketJoin_alone ⟨users, [⟨1, 1, 2, none, none⟩], [], sockets⟩ sid1
    (.channel 1) hlive hroom
  have hmcreate : Message.create
      (socketJoin ⟨users, [⟨1, 1, 2, none, none⟩], [], sockets⟩ sid1 (.channel 1))
      (some "hi") 1 1 now =
      some (⟨1, "hi", 1, 1, false, now⟩,
        { socketJoin ⟨users, [⟨1, 1, 2, none, none⟩], [], sockets⟩ sid1 (.channel 1) with
          messages := [] ++ [⟨1, "hi", 1, 1, false, now⟩] }) := by
    have hstored : storeText "hi" = "hi" := by decide
    simp [Message.create, socketJoin, hu1', nextId, hstored]
  have hsend := send_message_of_create
    (socketJoin ⟨users, [⟨1, 1, 2, none, none⟩], [], sockets⟩ sid1 (.channel 1)) sid1
    ⟨some "hi", 1, 1⟩ now _ _ hmcreate
  simp only [hfetch, List.length_singleton, lt_self_iff_false, if_false] at hsend
  have h2m : (send_message (create_channel ⟨users, [], [], sockets⟩ sid1 ⟨1, 2⟩).1 sid1
      ⟨some "hi", 1, 1⟩ now).1.messages = [⟨1, "hi", 1, 1, false, now⟩] := by
    rw [hcreate, hsend]; rfl
  have h2u : (send_message (create_channel ⟨users, [], [], sockets⟩ sid1 ⟨1, 2⟩).1 sid1
      ⟨some "hi", 1, 1⟩ now).1.users = users := by
    rw [hcreate, hsend]; rfl
  have h2c : currentUserId (send_message (create_channel ⟨users, [], [], sockets⟩ sid1 ⟨1, 2⟩).1
      sid1 ⟨some "hi", 1, 1⟩ now).1 sid2 = some 2 := by
    rw [hcreate, hsend]
    exact (currentUserId_socketJoin ⟨users, [⟨1, 1, 2, none, none⟩], [], sockets⟩ sid1
      (.channel 1) sid2).trans h2
  refine ⟨1, ?_, ?_, ?_, h2m, ?_⟩
  · rw [hcreate]
    have hnew := channelAnswers_ioToEmit_new_channel
    unfold channelAnswers at hnew ⊢
    rw [List.filterMap_append, hnew]
    simp [ChannelCreated.id]
  · rw [hcreate]; rfl
  · rw [hcreate]
    exact hfetch
  · obtain ⟨hm, hu, _⟩ := join_channel_store _ sid2 1 2 h2c (by decide)
    unfold getChannelMessages
    rw [hm, hu]
    simp [catchUp, h2m, orderByCreatedAtDesc]

/-- C10 at the sample store: socket 10 creates and sends, socket 20 joins. -/
theorem scenario_first_message_witness :
    ∃ C : Nat,
      channelAnswers 10 (create_channel sampleState 10 ⟨1, 2⟩).2 = [some C] ∧
      (create_channel sampleState 10 ⟨1, 2⟩).1.channels.map (fun c => c.id) = [C] ∧
      fetchSockets (create_channel sampleState 10 ⟨1, 2⟩).1 (.channel C) = [10] ∧
      (send_message (create_channel sampleState 10 ⟨1, 2⟩).1 10
          ⟨some "hi", 1, C⟩ 100).1.messages = [⟨1, "hi", 1, C, false, 100⟩] ∧
      (getChannelMessages
        (join_channel
          (send_message (create_channel sampleState 10 ⟨1, 2⟩).1 10
            ⟨some "hi", 1, C⟩ 100).1 20 C).1 C 1 50).map
          (fun page => page.map fun r => r.message) = some [⟨1, "hi", 1, C, true, 100⟩] :=
  scenario_first_message sampleUsers sampleState.sockets 10 20 100 (by decide) (by decide)
    (by decide) (by decide) (by decide)

/-! ## The history route -/

/-- The messages of a channel in the order of the query of the history route. -/
theorem orderByCreatedAtDesc_pairwise (ms : List Message) :
    (orderByCreatedAtDesc ms).Pairwise fun a b => b.createdAt ≤ a.createdAt := by
  haveI : IsTotal Message (fun a b => b.createdAt ≤ a.createdAt) :=
    ⟨fun a b => Nat.le_total _ _⟩
  haveI : IsTrans Message (fun a b => b.createdAt ≤ a.createdAt) :=
    ⟨fun _ _ _ hab hbc => Nat.le_trans hbc hab⟩
  exact List.sorted_insertionSort _ ms

/-- The answer of the history route for a page number `q + 1`. -/
theorem getChannelMessages_succ (s : State) (channelId q limit : Nat) :
    getChannelMessages s channelId (q + 1) limit =
      some ((((orderByCreatedAtDesc
        (s.messages.filter fun m => decide (m.channelId = channelId))).drop (q * limit)).take
          limit).map fun m =>
            ({ message := m
               username := (User.findByPk s.users m.userId).map fun u => u.username } :
              MessageWithUsername)).reverse := by
  unfold getChannelMessages
  have hoff : ((((q + 1 : Nat) : Int) - 1) * (limit : Int)) = ((q * limit : Nat) : Int) := by
    push_cast; ring
  simp only [hoff, Int.toNat_ofNat]
  rw [if_neg (by omega)]

/-- The message rows of the page numbered `q + 1`. -/
theorem historyPage_succ (s : State) (channelId q limit : Nat) :
    historyPage s channelId (q + 1) limit =
      (((orderByCreatedAtDesc
        (s.messages.filter fun m => decide (m.channelId = channelId))).drop (q * limit)).take
          limit).reverse := by
  unfold historyPage
  rw [getChannelMessages_succ]
  simp [List.map_reverse, Function.comp_def]

/-- The ordered listing holds the same rows as the table. -/
theorem orderByCreatedAtDesc_perm (ms : List Message) : (orderByCreatedAtDesc ms).Perm ms :=
  List.perm_insertionSort _ ms

/-- C11 does not hold: channel 1 of the sample store holds the messages 1 and 2
with the same `createdAt`; the history route lists message 2 before message
1, so equal timestamps do not appear in ascending identifier order. -/
theorem history_sorted_by_createdAt_counterexample :
    (getChannelMessages sampleTieState 1 1 50).map
        (fun page => page.map fun r => (r.message.createdAt, r.message.id)) =
      some [(100, 2), (100, 1)] := by
  decide

/-- C11 as amended: for every store, channel, page number at least 1 and page
size, the history route answers a list sorted in non-decreasing `createdAt`
order (the query has no second sort key, so nothing is said about the order of
equal timestamps). -/
theorem history_sorted_by_createdAt (s : State) (channelId page limit : Nat) (hp : 1 ≤ page) :
    ∃ l, getChannelMessages s channelId page limit = some l ∧
      (l.map fun r => r.message).Pairwise fun a b => a.createdAt ≤ b.createdAt := by
  obtain ⟨q, rfl⟩ : ∃ q, page = q + 1 := ⟨page - 1, by omega⟩
  refine ⟨_, getChannelMessages_succ s channelId q limit, ?_⟩
  have hpage := historyPage_succ s channelId q limit
  unfold historyPage at hpage
  rw [getChannelMessages_succ] at hpage
  simp only [Option.getD_some] at hpage
  rw [hpage, List.pairwise_reverse]
  exact ((orderByCreatedAtDesc_pairwise _).sublist (List.drop_sublist _ _)).sublist
    (List.take_sublist _ _)

/-- The amended C11 at the sample store with two equal timestamps. -/
theorem history_sorted_by_createdAt_witness :
    ∃ l, getChannelMessages sampleTieState 1 1 50 = some l ∧
      (l.map fun r => r.message).Pairwise fun a b => a.createdAt ≤ b.createdAt :=
  history_sorted_by_createdAt sampleTieState 1 1 50 (by decide)

/-- Pages `1` to `k` of the history route hold, up to order, the first `k * limit`
messages of the ordered channel. -/
theorem historyPages_perm_take (s : State) (channelId limit : Nat) (k : Nat) :
    ((List.range k).flatMap fun i => historyPage s channelId (i + 1) limit).Perm
      ((orderByCreatedAtDesc
        (s.messages.filter fun m => decide (m.channelId = channelId))).take (k * limit)) := by
  induction k with
  | zero => simp
  | succ k ih =>
    rw [List.range_succ, List.flatMap_append, List.flatMap_singleton, historyPage_succ,
      Nat.succ_mul, List.take_add]
    exact ih.append (List.reverse_perm _)

/-- The rounded-up quotient of `n` by `limit` pages covers `n` rows. -/
theorem ceil_mul_ge (n limit : Nat) (hN : 1 ≤ limit) : n ≤ (n + limit - 1) / limit * limit := by
  have h1 := Nat.div_add_mod (n + limit - 1) limit
  have h2 := Nat.mod_lt (n + limit - 1) (show 0 < limit by omega)
  have h3 : limit * ((n + limit - 1) / limit) = (n + limit - 1) / limit * limit := Nat.mul_comm _ _
  omega

/-- The table-order listing is one of the listings the database may use. -/
theorem orderByCreatedAtDesc_listing :
    CreatedAtDescListing fun _ _ rows => orderByCreatedAtDesc rows :=
  fun _ _ rows => ⟨orderByCreatedAtDesc_perm rows, orderByCreatedAtDesc_pairwise rows⟩

/-- The history route as modelled for one fixed listing is the route under the
table-order listing. -/
theorem getChannelMessages_eq_by (s : State) (channelId page limit : Nat) :
    getChannelMessages s channelId page limit =
      getChannelMessagesBy (fun _ _ rows => orderByCreatedAtDesc rows) s channelId page limit :=
  rfl

/-- The answer of the history route under a listing, for a page number
`q + 1`. -/
theorem getChannelMessagesBy_succ (listing : Nat → Nat → List Message → List Message)
    (s : State) (channelId q limit : Nat) :
    getChannelMessagesBy listing s channelId (q + 1) limit =
      some ((((listing (q * limit) limit
        (s.messages.filter fun m => decide (m.channelId = channelId))).drop (q * limit)).take
          limit).map fun m =>
            ({ message := m
               username := (User.findByPk s.users m.userId).map fun u => u.username } :
              MessageWithUsername)).reverse := by
  unfold getChannelMessagesBy
  have hoff : ((((q + 1 : Nat) : Int) - 1) * (limit : Int)) = ((q * limit : Nat) : Int) := by
    push_cast; ring
  simp only [hoff, Int.toNat_ofNat]
  rw [if_neg (by omega)]

/-- The message rows of the page numbered `q + 1` under a listing. -/
theorem historyPageBy_succ (listing : Nat → Nat → List Message → List Message)
    (s : State) (channelId q limit : Nat) :
    historyPageBy listing s channelId (q + 1) limit =
      (((listing (q * limit) limit
        (s.messages.filter fun m => decide (m.channelId = channelId))).drop (q * limit)).take
          limit).reverse := by
  unfold historyPageBy
  rw [getChannelMessagesBy_succ]
  simp [List.map_reverse, Function.comp_def]

/-- Rows with pairwise different timestamps have one listing by descending
timestamp only. -/
theorem listing_unique (rows l : List Message)
    (hdistinct : (rows.map fun m => m.createdAt).Nodup) (hperm : l.Perm rows)
    (hsorted : l.Pairwise fun a b => b.createdAt ≤ a.createdAt) :
    l = orderByCreatedAtDesc rows := by
  have strict : ∀ k : List Message, k.Perm rows →
      (k.Pairwise fun a b => b.createdAt ≤ a.createdAt) →
      k.Pairwise fun a b => b.createdAt < a.createdAt := by
    intro k hk hks
    have hnodup : (k.map fun m => m.createdAt).Nodup :=
      ((hk.map fun m => m.createdAt).nodup_iff).mpr hdistinct
    have hne : k.Pairwise fun a b => a.createdAt ≠ b.createdAt := by
      have := hnodup
      unfold List.Nodup at this
      rwa [List.pairwise_map] at this
    exact (hks.and hne).imp fun h => Nat.lt_of_le_of_ne h.1 (Ne.symm h.2)
  haveI : IsAntisymm Message (fun a b => b.createdAt < a.createdAt) :=
    ⟨fun _ _ hab hba => absurd hab (Nat.lt_asymm hba)⟩
  exact List.eq_of_perm_of_sorted (hperm.trans (orderByCreatedAtDesc_perm rows).symm)
    (strict l hperm hsorted)
    (strict _ (orderByCreatedAtDesc_perm rows) (orderByCreatedAtDesc_pairwise rows))

/-- Exchanging two tied rows at the head keeps the rows. -/
theorem swapTiedHead_perm (l : List Message) : (swapTiedHead l).Perm l := by
  unfold swapTiedHead
  split
  · split
    · exact List.Perm.swap _ _ _
    · exact List.Perm.refl _
  · exact List.Perm.refl _

/-- Exchanging two tied rows at the head keeps the descending order. -/
theorem swapTiedHead_pairwise (l : List Message)
    (h : l.Pairwise fun a b => b.createdAt ≤ a.createdAt) :
    (swapTiedHead l).Pairwise fun a b => b.createdAt ≤ a.createdAt := by
  unfold swapTiedHead
  split
  · rename_i a b rest
    split
    · rename_i htie
      rw [List.pairwise_cons, List.pairwise_cons] at h ⊢
      obtain ⟨ha, hb, hrest⟩ := h
      refine ⟨?_, ?_, hrest⟩
      · intro x hx
        rcases List.mem_cons.mp hx with rfl | hx
        · exact Nat.le_of_eq htie
        · exact hb x hx
      · intro x hx
        exact ha x (List.mem_cons_of_mem _ hx)
    · exact h
  · exact h

/-- The sample listing arranges the rows by descending timestamp for every
query. -/
theorem sampleListing_listing : CreatedAtDescListing sampleListing := by
  intro offset limit rows
  unfold sampleListing
  split
  · exact ⟨(swapTiedHead_perm _).trans (orderByCreatedAtDesc_perm rows),
      swapTiedHead_pairwise _ (orderByCreatedAtDesc_pairwise rows)⟩
  · exact ⟨orderByCreatedAtDesc_perm rows, orderByCreatedAtDesc_pairwise rows⟩

/-- C12 does not hold: channel 1 holds five messages with the same `createdAt`,
the page size is 1 and the database answers the query with `OFFSET 1` from a
listing that starts with message 2 and the other queries from one that starts
with message 1; both arrange the rows by descending `createdAt`.  Pages 1 to 5
are then the messages 1, 1, 3, 4, 5: message 1 is listed twice and message 2
on no page. -/
theorem history_pages_tie_counterexample :
    CreatedAtDescListing sampleListing ∧
    ((sampleFiveTieState.messages.filter fun m => decide (m.channelId = 1)).length + 1 - 1) / 1 =
      5 ∧
    (List.range 5).map (fun i =>
        (historyPageBy sampleListing sampleFiveTieState 1 (i + 1) 1).map fun m => m.id) =
      [[1], [1], [3], [4], [5]] ∧
    ¬ ((List.range 5).flatMap fun i =>
        historyPageBy sampleListing sampleFiveTieState 1 (i + 1) 1).Perm
      (sampleFiveTieState.messages.filter fun m => decide (m.channelId = 1)) := by
  refine ⟨sampleListing_listing, by decide, by decide, ?_⟩
  · intro hperm
    have hmem : (⟨2, "b", 2, 1, true, 100⟩ : Message) ∈
        ((List.range 5).flatMap fun i =>
          historyPageBy sampleListing sampleFiveTieState 1 (i + 1) 1) :=
      hperm.mem_iff.mpr (by decide)
    revert hmem
    decide

/-- C12 as amended: whichever listings by descending `createdAt` the database
uses for the queries, for a page size `limit` of at least 1 and a channel with
`n` messages: when the messages of the channel have pairwise different
`createdAt`, the pages 1 to `(n + limit - 1) / limit` (the quotient rounded up)
of the history route hold together, up to order, exactly the messages of the
channel, each once; with or without equal timestamps, every page from number 1
on holds at most `limit` messages and every page beyond the rounded-up quotient
is empty. -/
theorem history_pages_partition (listing : Nat → Nat → List Message → List Message)
    (hlisting : CreatedAtDescListing listing) (s : State) (channelId limit : Nat)
    (hN : 1 ≤ limit) :
    (((s.messages.filter fun m => decide (m.channelId = channelId)).map
        fun m => m.createdAt).Nodup →
      ((List.range (((s.messages.filter fun m => decide (m.channelId = channelId)).length
          + limit - 1) / limit)).flatMap fun i =>
            historyPageBy listing s channelId (i + 1) limit).Perm
        (s.messages.filter fun m => decide (m.channelId = channelId)) ∧
      ((List.range (((s.messages.filter fun m => decide (m.channelId = channelId)).length
          + limit - 1) / limit)).flatMap fun i =>
            historyPageBy listing s channelId (i + 1) limit).Nodup) ∧
    (∀ page, 1 ≤ page →
      ∃ l, getChannelMessagesBy listing s channelId page limit = some l ∧ l.length ≤ limit) ∧
    (∀ page, ((s.messages.filter fun m => decide (m.channelId = channelId)).length
        + limit - 1) / limit < page →
      getChannelMessagesBy listing s channelId page limit = some []) := by
  have hlen : ∀ offset, (listing offset limit
      (s.messages.filter fun m => decide (m.channelId = channelId))).length =
      (s.messages.filter fun m => decide (m.channelId = channelId)).length :=
    fun offset => (hlisting offset limit _).1.length_eq
  refine ⟨?_, ?_, ?_⟩
  · intro hdistinct
    have hpages : ∀ i, historyPageBy listing s channelId (i + 1) limit =
        historyPage s channelId (i + 1) limit := by
      intro i
      rw [historyPageBy_succ, historyPage_succ,
        listing_unique _ _ hdistinct (hlisting _ _ _).1 (hlisting _ _ _).2]
    simp only [hpages]
    have hperm : ((List.range (((s.messages.filter fun m =>
        decide (m.channelId = channelId)).length + limit - 1) / limit)).flatMap fun i =>
          historyPage s channelId (i + 1) limit).Perm
        (s.messages.filter fun m => decide (m.channelId = channelId)) := by
      refine (historyPages_perm_take s channelId limit _).trans ?_
      rw [List.take_of_length_le
        (by rw [(orderByCreatedAtDesc_perm _).length_eq]; exact ceil_mul_ge _ _ hN)]
      exact orderByCreatedAtDesc_perm _
    exact ⟨hperm, hperm.nodup_iff.mpr (List.Nodup.of_map _ hdistinct)⟩
  · intro page hp
    obtain ⟨q, rfl⟩ : ∃ q, page = q + 1 := ⟨page - 1, by omega⟩
    refine ⟨_, getChannelMessagesBy_succ listing s channelId q limit, ?_⟩
    simp only [List.length_reverse, List.length_map]
    exact List.length_take_le _ _
  · intro page hp
    have hpos : 0 < page := Nat.lt_of_le_of_lt (Nat.zero_le _) hp
    obtain ⟨q, rfl⟩ : ∃ q, page = q + 1 := ⟨page - 1, by omega⟩
    rw [getChannelMessagesBy_succ]
    have hq : (listing (q * limit) limit
        (s.messages.filter fun m => decide (m.channelId = channelId))).length ≤ q * limit := by
      rw [hlen]
      exact (ceil_mul_ge _ _ hN).trans (Nat.mul_le_mul_right _ (Nat.lt_succ_iff.mp hp))
    rw [List.drop_of_length_le hq]
    simp

/-- The amended C12 at a store with three messages of different timestamps on
channel 1, page size 2 and the listing of the counterexample. -/
theorem history_pages_partition_witness :
    ((List.range (((sampleDistinctState.messages.filter fun m =>
        decide (m.channelId = 1)).length + 2 - 1) / 2)).flatMap fun i =>
          historyPageBy sampleListing sampleDistinctState 1 (i + 1) 2).Perm
      (sampleDistinctState.messages.filter fun m => decide (m.channelId = 1)) ∧
    ((List.range (((sampleDistinctState.messages.filter fun m =>
        decide (m.channelId = 1)).length + 2 - 1) / 2)).flatMap fun i =>
          historyPageBy sampleListing sampleDistinctState 1 (i + 1) 2).Nodup :=
  (history_pages_partition sampleListing sampleListing_listing sampleDistinctState 1 2
    (by decide)).1 (by decide)

/-! ## Presence -/

/-- C13: when the verifier rejects the token, `authenticate` leaves the whole
state as it was, so the socket keeps the user it was bound to (none for a
fresh socket), no `online` flag changes and no room is joined, and it emits
nothing, in particular no `user_status_change`. -/
theorem authenticate_rejected (verify : String → Option Nat) (s : State) (sid : Nat)
    (token : String) (hrej : verify token = none) :
    (authenticate verify s sid token).1 = s ∧
    currentUserId (authenticate verify s sid token).1 sid = currentUserId s sid ∧
    (authenticate verify s sid token).1.users = s.users ∧
    (authenticate verify s sid token).1.sockets = s.sockets ∧
    (authenticate verify s sid token).2 = [] := by
  have h : authenticate verify s sid token = (s, []) := by
    unfold authenticate
    rw [hrej]
  rw [h]
  exact ⟨rfl, rfl, rfl, rfl, rfl⟩

/-- C13 at the sample store with a token the sample verifier rejects. -/
theorem authenticate_rejected_witness :
    (authenticate sampleVerify sampleState 10 "expired").1 = sampleState ∧
    currentUserId (authenticate sampleVerify sampleState 10 "expired").1 10 =
      currentUserId sampleState 10 ∧
    (authenticate sampleVerify sampleState 10 "expired").1.users = sampleState.users ∧
    (authenticate sampleVerify sampleState 10 "expired").1.sockets = sampleState.sockets ∧
    (authenticate sampleVerify sampleState 10 "expired").2 = [] :=
  authenticate_rejected sampleVerify sampleState 10 "expired" (by decide)

/-- Rewriting the bound user of sockets keeps the list of socket ids. -/
theorem map_id_rebind (l : List Socket) (sid : Nat) (b : Option Nat) :
    (l.map fun k => if k.id = sid then { k with currentUserId := b } else k).map (fun k => k.id) =
      l.map fun k => k.id := by
  rw [List.map_map]
  apply List.map_congr_left
  intro k _
  simp only [Function.comp]
  split <;> rfl

/-- C14 does not hold: socket 10 is bound to user 1 and still live when socket
11 authenticates as user 1; this second `authenticate` emits
`user_status_change` for user 1 with `online = true` again, to socket 10. -/
theorem authenticate_second_connection_counterexample :
    ((exec sampleVerify sampleChannelState
        [.connect 10, .connect 11, .authenticate 10 "token-ann"]).sockets.filter
      fun k => decide (k.currentUserId = some 1)).map (fun k => k.id) = [10] ∧
    (step sampleVerify
        (exec sampleVerify sampleChannelState
          [.connect 10, .connect 11, .authenticate 10 "token-ann"])
        (.authenticate 11 "token-ann")).2 = [⟨10, .user_status_change 1 true⟩] := by
  decide

/-- C14 as amended: every `authenticate` with a verified token for user `U`
emits `user_status_change` for `U` with `online = true` once to every live
socket other than the authenticating one, whatever the number of sockets
already bound to `U`. -/
theorem authenticate_broadcast (verify : String → Option Nat) (s : State) (sid : Nat)
    (token : String) (U : Nat) (hok : verify token = some U) :
    (authenticate verify s sid token).2 =
      (((s.sockets.map fun k => k.id).dedup).filter fun i => decide (i ≠ sid)).map
        fun i => (⟨i, .user_status_change U true⟩ : Emit) := by
  unfold authenticate
  rw [hok]
  simp only [socketBroadcastEmit, setOnline, map_id_rebind]

/-- The amended C14 at the sample store. -/
theorem authenticate_broadcast_witness :
    (authenticate sampleVerify sampleState 10 "token-ann").2 =
      (((sampleState.sockets.map fun k => k.id).dedup).filter fun i => decide (i ≠ 10)).map
        fun i => (⟨i, .user_status_change 1 true⟩ : Emit) :=
  authenticate_broadcast sampleVerify sampleState 10 "token-ann" 1 (by decide)

/-- C15 does not hold: sockets 10 and 11 are both bound to user 1; the
disconnect of socket 10 emits `user_status_change` for user 1 with
`online = false` to socket 11 and stores user 1 as offline, while socket 11 is
still live and bound to user 1. -/
theorem disconnect_first_of_two_counterexample :
    ((exec sampleVerify sampleChannelState sampleTwoConnections).sockets.filter
      fun k => decide (k.currentUserId = some 1)).map (fun k => k.id) = [10, 11] ∧
    (step sampleVerify (exec sampleVerify sampleChannelState sampleTwoConnections)
        (.disconnect 10)).2 = [⟨11, .user_status_change 1 false⟩] ∧
    (step sampleVerify (exec sampleVerify sampleChannelState sampleTwoConnections)
        (.disconnect 10)).1.users.map (fun u => (u.id, u.online)) = [(1, false), (2, false)] ∧
    (step sampleVerify (exec sampleVerify sampleChannelState sampleTwoConnections)
        (.disconnect 10)).1.sockets.map (fun k => (k.id, k.currentUserId)) = [(11, some 1)] := by
  decide

/-- C15 as amended: the disconnect of a socket bound to the (non-zero) user `U`
removes that socket, sets `online = false` on `U` and emits
`user_status_change` for `U` with `online = false` once to every remaining
socket, whether or not another socket is still bound to `U`. -/
theorem disconnect_broadcast (s : State) (sid U : Nat)
    (hU : currentUserId s sid = some U) (h0 : U ≠ 0) :
    (disconnect s sid).1.sockets = s.sockets.filter (fun k => decide (k.id ≠ sid)) ∧
    (disconnect s sid).1.users =
      s.users.map (fun u => if u.id = U then { u with online := false } else u) ∧
    (disconnect s sid).2 =
      ((((s.sockets.filter fun k => decide (k.id ≠ sid)).map fun k => k.id).dedup).filter
        fun i => decide (i ≠ sid)).map fun i => (⟨i, .user_status_change U false⟩ : Emit) := by
  unfold disconnect
  simp only [hU, h0, ne_eq, not_false_eq_true, if_true]
  exact ⟨rfl, rfl, rfl⟩

/-- The amended C15 at the sample store: socket 20 of user 2 disconnects while
socket 30 of user 2 stays. -/
theorem disconnect_broadcast_witness :
    (disconnect sampleJoinedState 20).1.sockets =
      sampleJoinedState.sockets.filter (fun k => decide (k.id ≠ 20)) ∧
    (disconnect sampleJoinedState 20).1.users =
      sampleJoinedState.users.map (fun u => if u.id = 2 then { u with online := false } else u) ∧
    (disconnect sampleJoinedState 20).2 =
      ((((sampleJoinedState.sockets.filter fun k => decide (k.id ≠ 20)).map
          fun k => k.id).dedup).filter
        fun i => decide (i ≠ 20)).map fun i => (⟨i, .user_status_change 2 false⟩ : Emit) :=
  disconnect_broadcast sampleJoinedState 20 2 (by decide) (by decide)

/-- C16 does not hold: from the store without sockets and with every user
offline, two sockets authenticate as user 1 and one of them disconnects; user
1 is then stored offline although a live socket is bound to it. -/
theorem online_flag_counterexample :
    ∃ u ∈ (exec sampleVerify sampleChannelState
        (sampleTwoConnections ++ [.disconnect 10])).users,
      u.online = false ∧
      ∃ k ∈ (exec sampleVerify sampleChannelState
          (sampleTwoConnections ++ [.disconnect 10])).sockets,
        k.currentUserId = some u.id := by
  decide

/-- A new connection leaves the users alone. -/
theorem connect_users (s : State) (sid : Nat) : (connect s sid).1.users = s.users := by
  unfold connect
  split <;> rfl

/-- `create_channel` leaves the users alone. -/
theorem create_channel_users (s : State) (sid : Nat) (data : CreateChannelData) :
    (create_channel s sid data).1.users = s.users := by
  unfold create_channel
  split
  · rfl
  · split
    · rfl
    · rename_i channel s1 hcreate
      have hs1 : s1.users = s.users := by
        unfold Channel.create at hcreate
        split at hcreate
        · simp only [Option.some.injEq, Prod.mk.injEq] at hcreate
          rw [← hcreate.2]
        · simp at hcreate
      split
      · exact hs1
      · exact hs1

/-- `join_channel` leaves the users alone. -/
theorem join_channel_users (s : State) (sid C : Nat) : (join_channel s sid C).1.users = s.users := by
  unfold join_channel
  simp only
  split
  · split <;> rfl
  · rfl

/-- `send_message` leaves the users alone. -/
theorem send_message_users (s : State) (sid : Nat) (data : SendMessageData) (now : Nat) :
    (send_message s sid data now).1.users = s.users := by
  cases hcreate : Message.create s data.content data.userId data.channelId now with
  | none => simp [send_message, hcreate]
  | some p =>
    obtain ⟨m, s1⟩ := p
    rw [send_message_of_create s sid data now m s1 hcreate]
    split <;> rfl

/-- `message_seen` leaves the users alone. -/
theorem message_seen_users (s : State) (messageId channelId : Nat) :
    (message_seen s messageId channelId).1.users = s.users := rfl

/-- The `online` column after one handled event. -/
theorem step_users (verify : String → Option Nat) (st : State) (i : Input) :
    (step verify st i).1.users = st.users.map fun u =>
      match onlineWrite verify st i u.id with
      | some b => { u with online := b }
      | none => u := by
  have hsame : ∀ l : List User, l = l.map fun u =>
      match (none : Option Bool) with
      | some b => { u with online := b }
      | none => u := fun l => by simp
  cases i with
  | connect sid => simp [step, onlineWrite, connect_users]
  | create_channel sid data =>
    simp only [step, onlineWrite]
    split
    · rw [create_channel_users]; exact hsame _
    · exact hsame _
  | join_channel sid C =>
    simp only [step, onlineWrite]
    split
    · rw [join_channel_users]; exact hsame _
    · exact hsame _
  | send_message sid data now =>
    simp only [step, onlineWrite]
    split
    · rw [send_message_users]; exact hsame _
    · exact hsame _
  | message_seen sid messageId channelId =>
    simp only [step, onlineWrite]
    split
    · rw [message_seen_users]; exact hsame _
    · exact hsame _
  | authenticate sid token =>
    simp only [step, onlineWrite]
    by_cases hlive : sid ∈ st.sockets.map (fun k => k.id)
    · rw [if_pos hlive]
      cases hv : verify token with
      | none =>
        simp [authenticate, hv]
      | some id =>
        simp only [authenticate, hv, socketJoin, setOnline]
        apply List.map_congr_left
        intro u _
        by_cases hu : u.id = id
        · simp [hu, hlive]
        · have : ¬ (id = u.id) := fun h => hu h.symm
          simp [hu, this]
    · rw [if_neg hlive]
      simp [hlive]
  | disconnect sid =>
    simp only [step, onlineWrite]
    by_cases hlive : sid ∈ st.sockets.map (fun k => k.id)
    · rw [if_pos hlive]
      cases hc : currentUserId st sid with
      | none => simp [disconnect, hc]
      | some U =>
        by_cases h0 : U = 0
        · subst h0
          simp only [disconnect, hc]
          simp only [ne_eq, not_true_eq_false, if_false]
          conv_lhs => rw [← List.map_id st.users]
          apply List.map_congr_left
          intro u _
          have : ¬ (sid ∈ st.sockets.map (fun k => k.id) ∧ some 0 = some u.id ∧ u.id ≠ 0) := by
            rintro ⟨_, h1, h2⟩
            exact h2 (Option.some.inj h1).symm
          rw [if_neg this]
          rfl
        · simp only [disconnect, hc, setOnline, ne_eq, h0, not_false_eq_true, if_true]
          apply List.map_congr_left
          intro u _
          by_cases hu : u.id = U
          · simp [hu, hlive, h0]
          · have : ¬ (U = u.id) := fun h => hu h.symm
            simp [hu, this]
    · rw [if_neg hlive]
      simp [hlive]


/-- The state component of the tracked run is the state of the run. -/
theorem foldl_onlineTrack_fst (verify : String → Option Nat) (U : Nat) (run : List Input) :
    ∀ acc : State × Option Bool,
      (run.foldl (onlineTrack verify U) acc).1 = exec verify acc.1 run := by
  induction run with
  | nil => intro acc; rfl
  | cons i rest ih =>
    intro acc
    rw [List.foldl_cons, ih]
    rfl

/-- The last write after one more event. -/
theorem lastOnlineWrite_append_singleton (verify : String → Option Nat) (s0 : State)
    (run : List Input) (i : Input) (U : Nat) :
    lastOnlineWrite verify s0 (run ++ [i]) U =
      match onlineWrite verify (exec verify s0 run) i U with
      | some b => some b
      | none => lastOnlineWrite verify s0 run U := by
  unfold lastOnlineWrite
  rw [List.foldl_append, List.foldl_cons, List.foldl_nil]
  simp only [onlineTrack, foldl_onlineTrack_fst]

/-- The `online` column after a run: each user carries the last value the run
wrote for it, or its initial value when the run wrote none. -/
theorem exec_users (verify : String → Option Nat) (s0 : State) (run : List Input) :
    (exec verify s0 run).users = s0.users.map fun u =>
      match lastOnlineWrite verify s0 run u.id with
      | some b => { u with online := b }
      | none => u := by
  induction run using List.reverseRecOn with
  | nil => simp [exec, lastOnlineWrite]
  | append_singleton pre i ih =>
    rw [exec_append_singleton, step_users, ih, List.map_map]
    apply List.map_congr_left
    intro u _
    simp only [Function.comp, lastOnlineWrite_append_singleton]
    cases hlast : lastOnlineWrite verify s0 pre u.id with
    | none =>
      simp only
      cases onlineWrite verify (exec verify s0 pre) i u.id <;> rfl
    | some b =>
      simp only
      cases onlineWrite verify (exec verify s0 pre) i u.id <;> rfl

/-- C16 as amended: in every state reached from a state in which every user is
offline, a user is stored online exactly when the last event of the run that
wrote its flag was a verified `authenticate` as that user; the events that
write the flag are a verified `authenticate` as the user (true) and the
disconnect of a socket bound to the user (false). -/
theorem online_flag_last_write (verify : String → Option Nat) (s0 : State)
    (h0 : ∀ u ∈ s0.users, u.online = false) (run : List Input) :
    ∀ u ∈ (exec verify s0 run).users,
      (u.online = true ↔ lastOnlineWrite verify s0 run u.id = some true) := by
  intro u hu
  rw [exec_users] at hu
  obtain ⟨v, hv, rfl⟩ := List.mem_map.mp hu
  have hoff := h0 v hv
  cases hlast : lastOnlineWrite verify s0 run v.id with
  | none => simp [hlast, hoff]
  | some b => cases b <;> simp [hlast]

/-- The amended C16 for user 1 after the run of the counterexample. -/
theorem online_flag_last_write_witness :
    ((⟨1, "ann", "5550000001", none, false⟩ : User).online = true ↔
      lastOnlineWrite sampleVerify sampleChannelState
        (sampleTwoConnections ++ [.disconnect 10])
        (⟨1, "ann", "5550000001", none, false⟩ : User).id = some true) :=
  online_flag_last_write sampleVerify sampleChannelState (by decide)
    (sampleTwoConnections ++ [.disconnect 10]) ⟨1, "ann", "5550000001", none, false⟩ (by decide)

/-! ## Requests on connections that have not authenticated -/

/-- The sockets of a room do not depend on the users the sockets are bound to. -/
theorem fetchSockets_withBinding (s : State) (sid : Nat) (b : Option Nat) (room : Room) :
    fetchSockets (withBinding s sid b) room = fetchSockets s room := by
  unfold fetchSockets withBinding
  simp only
  congr 1
  induction s.sockets with
  | nil => rfl
  | cons a rest ih =>
    simp only [List.map_cons, List.filter_cons]
    by_cases ha : a.id = sid
    · rw [if_pos ha]
      by_cases hr : room ∈ a.rooms
      · simp [hr, ih]
      · simp [hr, ih]
    · rw [if_neg ha]
      by_cases hr : room ∈ a.rooms
      · simp [hr, ih]
      · simp [hr, ih]

/-- A room broadcast does not depend on the users the sockets are bound to. -/
theorem ioToEmit_withBinding (s : State) (sid : Nat) (b : Option Nat) (room : Room)
    (event : Outbound) : ioToEmit (withBinding s sid b) room event = ioToEmit s room event := by
  unfold ioToEmit
  rw [fetchSockets_withBinding]

/-- Joining a room commutes with rebinding a socket. -/
theorem socketJoin_withBinding (s : State) (sid : Nat) (b : Option Nat) (k : Nat) (room : Room) :
    socketJoin (withBinding s sid b) k room = withBinding (socketJoin s k room) sid b := by
  unfold socketJoin withBinding
  simp only [List.map_map, State.mk.injEq, true_and]
  apply List.map_congr_left
  intro a _
  obtain ⟨aid, acu, arooms⟩ := a
  simp only [Function.comp]
  by_cases ha : aid = sid
  · subst ha
    by_cases hj : aid = k ∧ room ∉ arooms <;> simp [hj]
  · by_cases hj : aid = k ∧ room ∉ arooms
    · obtain ⟨rfl, hr⟩ := hj
      simp [ha, hr]
    · simp [ha, hj]

/-- `create_channel` commutes with rebinding a socket. -/
theorem create_channel_withBinding (s : State) (sid : Nat) (b : Option Nat) (k : Nat)
    (data : CreateChannelData) :
    create_channel (withBinding s sid b) k data =
      (withBinding (create_channel s k data).1 sid b, (create_channel s k data).2) := by
  unfold create_channel
  have hch : (withBinding s sid b).channels = s.channels := rfl
  rw [hch]
  cases hfind : Channel.findOne s.channels data.userId data.targetUserId with
  | some c => rfl
  | none =>
    simp only
    unfold Channel.create
    have hus : (withBinding s sid b).users = s.users := rfl
    rw [hus, hch]
    by_cases hfk : (User.findByPk s.users data.userId).isSome ∧
        (User.findByPk s.users data.targetUserId).isSome
    · rw [if_pos hfk, if_pos hfk]
      simp only
      cases ht : User.findByPk s.users data.targetUserId with
      | none => rfl
      | some t =>
        have key := socketJoin_withBinding
          { s with channels := s.channels ++
              [{ id := nextId (s.channels.map fun c => c.id), user1Id := data.userId,
                 user2Id := data.targetUserId, lastMessageId := none, lastMessageTime := none }] }
          sid b k (.channel (nextId (s.channels.map fun c => c.id)))
        have hu : User.findByPk (withBinding s sid b).users data.targetUserId = some t := ht
        simp only [hu, ht]
        refine Prod.ext key ?_
        have hemit : ∀ (room r : Room) (e : Outbound),
            ioToEmit (socketJoin (withBinding s sid b) k room) r e =
              ioToEmit (socketJoin s k room) r e := fun room r e => by
          rw [socketJoin_withBinding, ioToEmit_withBinding]
        show ioToEmit (socketJoin (withBinding s sid b) k _) _ _ ++ _ = _
        rw [hemit]
        rfl
    · rw [if_neg hfk, if_neg hfk]


/-- `Message.create` commutes with rebinding a socket. -/
theorem Message.create_withBinding (s : State) (sid : Nat) (b : Option Nat)
    (content : Option String) (userId channelId now : Nat) :
    Message.create (withBinding s sid b) content userId channelId now =
      (Message.create s content userId channelId now).map fun p => (p.1, withBinding p.2 sid b) := by
  unfold Message.create
  cases content with
  | none => rfl
  | some text =>
    simp only
    have hus : (withBinding s sid b).users = s.users := rfl
    have hch : (withBinding s sid b).channels = s.channels := rfl
    rw [hus, hch]
    split <;> rfl

/-- `send_message` commutes with rebinding a socket. -/
theorem send_message_withBinding (s : State) (sid : Nat) (b : Option Nat) (k : Nat)
    (data : SendMessageData) (now : Nat) :
    send_message (withBinding s sid b) k data now =
      (withBinding (send_message s k data now).1 sid b, (send_message s k data now).2) := by
  have hbound := Message.create_withBinding s sid b data.content data.userId data.channelId now
  cases hcreate : Message.create s data.content data.userId data.channelId now with
  | none =>
    rw [hcreate] at hbound
    simp only [send_message, hcreate, hbound, Option.map_none']
  | some p =>
    obtain ⟨m, s1⟩ := p
    rw [hcreate] at hbound
    rw [send_message_of_create s k data now m s1 hcreate,
      send_message_of_create (withBinding s sid b) k data now m _ hbound,
      fetchSockets_withBinding]
    split <;> rfl

/-- `message_seen` commutes with rebinding a socket. -/
theorem message_seen_withBinding (s : State) (sid : Nat) (b : Option Nat)
    (messageId channelId : Nat) :
    message_seen (withBinding s sid b) messageId channelId =
      (withBinding (message_seen s messageId channelId).1 sid b,
        (message_seen s messageId channelId).2) := by
  unfold message_seen
  refine Prod.ext rfl ?_
  show ioToEmit (withBinding (markDelivered s messageId) sid b) _ _ = _
  rw [ioToEmit_withBinding]

/-- On a socket bound to no user `join_channel` only joins the room. -/
theorem join_channel_unbound (s : State) (sid C : Nat) (hnone : currentUserId s sid = none) :
    (join_channel s sid C).1 = socketJoin s sid (.channel C) := by
  unfold join_channel
  simp only [currentUserId_socketJoin, hnone]

/-- C17 does not hold: on socket 10, which has not authenticated,
`send_message` stores the message and broadcasts it to socket 20,
`message_seen` marks message 1 delivered and broadcasts to socket 20,
`join_channel` adds socket 10 to the room of channel 1, and `create_channel`
stores a new channel and pushes `new_channel` to socket 20. -/
theorem unauthenticated_counterexample :
    (send_message sampleAnonymousState 10 ⟨some "yo", 1, 1⟩ 200).1.messages =
      [⟨1, "hi", 1, 1, false, 100⟩, ⟨2, "yo", 1, 1, false, 200⟩] ∧
    (send_message sampleAnonymousState 10 ⟨some "yo", 1, 1⟩ 200).2.map
        (fun e => (e.target, e.event.name)) = [(20, "receive_message")] ∧
    (message_seen sampleAnonymousState 1 1).1.messages = [⟨1, "hi", 1, 1, true, 100⟩] ∧
    (message_seen sampleAnonymousState 1 1).2 = [⟨20, .message_delivered 1 1⟩] ∧
    fetchSockets (join_channel sampleAnonymousState 10 1).1 (.channel 1) = [10, 20] ∧
    (create_channel (withBinding sampleState 10 none) 10 ⟨1, 2⟩).1.channels =
      [⟨1, 1, 2, none, none⟩] ∧
    (create_channel (withBinding sampleState 10 none) 10 ⟨1, 2⟩).2.map
        (fun e => (e.target, e.event.name)) = [(20, "new_channel"), (10, "channel_created")] := by
  decide

/-- C17 as amended: the handlers never test whether the connection has
authenticated.  `create_channel`, `send_message` and `message_seen` give the
same emissions and make the same changes whatever user, or none, the
requesting socket is bound to; `join_channel` on a socket bound to no user
joins the room and answers the history, and changes nothing else (the
delivery catch-up alone is skipped). -/
theorem unauthenticated_not_rejected (s : State) (sid : Nat) (b : Option Nat) :
    (∀ data, create_channel (withBinding s sid b) sid data =
      (withBinding (create_channel s sid data).1 sid b, (create_channel s sid data).2)) ∧
    (∀ data now, send_message (withBinding s sid b) sid data now =
      (withBinding (send_message s sid data now).1 sid b, (send_message s sid data now).2)) ∧
    (∀ messageId channelId, message_seen (withBinding s sid b) messageId channelId =
      (withBinding (message_seen s messageId channelId).1 sid b,
        (message_seen s messageId channelId).2)) ∧
    (∀ C, currentUserId s sid = none →
      (join_channel s sid C).1 = socketJoin s sid (.channel C) ∧
      ∃ history, (join_channel s sid C).2 = [⟨sid, .message_history history⟩]) :=
  ⟨fun data => create_channel_withBinding s sid b sid data,
   fun data now => send_message_withBinding s sid b sid data now,
   fun messageId channelId => message_seen_withBinding s sid b messageId channelId,
   fun C hnone => ⟨join_channel_unbound s sid C hnone, ⟨_, rfl⟩⟩⟩

/-- The amended C17 at the sample store, for `join_channel` on socket 10. -/
theorem unauthenticated_not_rejected_witness :
    (join_channel sampleAnonymousState 10 1).1 = socketJoin sampleAnonymousState 10 (.channel 1) ∧
    ∃ history, (join_channel sampleAnonymousState 10 1).2 = [⟨10, .message_history history⟩] :=
  (unauthenticated_not_rejected sampleAnonymousState 10 none).2.2.2 1 (by decide)

/-! ## Seen marks, racing channel creation, message references -/

/-- C18: handling `message_seen` a second time with the same message id and
channel id leaves the state as the first handling left it; after the first
handling every stored message with that id has `delivered = true`; and the
second handling ends without an error event: all it emits is
`message_delivered` for that message and channel. -/
theorem message_seen_idempotent (s : State) (messageId channelId : Nat) :
    (message_seen (message_seen s messageId channelId).1 messageId channelId).1 =
      (message_seen s messageId channelId).1 ∧
    (∀ m ∈ (message_seen s messageId channelId).1.messages,
      m.id = messageId → m.delivered = true) ∧
    (∀ e ∈ (message_seen (message_seen s messageId channelId).1 messageId channelId).2,
      e.event = .message_delivered messageId channelId) := by
  refine ⟨?_, ?_, ?_⟩
  · simp only [message_seen, markDelivered, List.map_map]
    congr 1
    apply List.map_congr_left
    intro m _
    simp only [Function.comp]
    by_cases h : m.id = messageId
    · simp [h]
    · simp [h]
  · intro m hm hid
    simp only [message_seen, markDelivered, List.mem_map] at hm
    obtain ⟨x, _, rfl⟩ := hm
    by_cases h : x.id = messageId
    · simp [h]
    · rw [if_neg h] at hid
      exact absurd hid h
  · intro e he
    simp only [message_seen, ioToEmit, List.mem_map] at he
    obtain ⟨k, _, rfl⟩ := he
    rfl

/-- `create_channel` is its lookup followed by the rest of the handler. -/
theorem create_channel_eq_resume (s : State) (sid : Nat) (data : CreateChannelData) :
    create_channel s sid data =
      create_channel_resume s sid data
        (Channel.findOne s.channels data.userId data.targetUserId) := by
  unfold create_channel create_channel_resume
  cases Channel.findOne s.channels data.userId data.targetUserId <;> rfl

/-- C20, evaluated: sockets 10 and 20 ask for the pair of users 1 and 2 and both
lookups run before either insert.  Both requests find no channel, both insert
one, the two are answered different channel ids, and the store ends with two
channels for the pair. -/
theorem create_channel_race :
    (create_channel_interleaved sampleState 10 ⟨1, 2⟩ 20 ⟨2, 1⟩).1.channels =
      [⟨1, 1, 2, none, none⟩, ⟨2, 2, 1, none, none⟩] ∧
    channelAnswers 10 (create_channel_interleaved sampleState 10 ⟨1, 2⟩ 20 ⟨2, 1⟩).2.1 =
      [some 1] ∧
    channelAnswers 20 (create_channel_interleaved sampleState 10 ⟨1, 2⟩ 20 ⟨2, 1⟩).2.2 =
      [some 2] ∧
    ((create_channel_interleaved sampleState 10 ⟨1, 2⟩ 20 ⟨2, 1⟩).1.channels.filter
      (Channel.pairMatch 1 2)).length = 2 := by
  decide

/-- C19 does not hold: user 3 is stored but is no participant of channel 1; the
store satisfies the invariant, yet `send_message` with `userId = 3` on channel
1 persists the message, and the invariant fails afterwards.  The same request
on channel 99, which is no stored channel, is persisted as well. -/
theorem participant_counterexample :
    ParticipantIntegrity sampleOutsiderState ∧
    (send_message sampleOutsiderState 30 ⟨some "hi", 3, 1⟩ 100).1.messages =
      [⟨1, "hi", 3, 1, false, 100⟩] ∧
    ¬ ParticipantIntegrity (send_message sampleOutsiderState 30 ⟨some "hi", 3, 1⟩ 100).1 ∧
    (send_message sampleOutsiderState 30 ⟨some "hi", 3, 99⟩ 100).1.messages =
      [⟨1, "hi", 3, 99, false, 100⟩] ∧
    (send_message sampleOutsiderState 30 ⟨some "hi", 3, 99⟩ 100).1.channels =
      [⟨1, 1, 2, none, none⟩] := by
  refine ⟨?_, ?_, ?_, ?_, ?_⟩
  · unfold ParticipantIntegrity; decide
  · decide
  · unfold ParticipantIntegrity; decide
  · decide
  · decide

/-- No handled event removes a user id. -/
theorem step_users_kept (verify : String → Option Nat) (st : State) (i : Input) :
    ∀ u ∈ st.users, ∃ u' ∈ (step verify st i).1.users, u'.id = u.id := by
  intro u hu
  rw [step_users]
  refine ⟨_, List.mem_map_of_mem _ hu, ?_⟩
  cases onlineWrite verify st i u.id <;> rfl

/-- Every message stored after a handled event either carries the channel and
author of a message stored before, or has a user stored before as its
author. -/
theorem step_messages_from (verify : String → Option Nat) (st : State) (i : Input) :
    ∀ m ∈ (step verify st i).1.messages,
      (∃ m0 ∈ st.messages, m0.channelId = m.channelId ∧ m0.userId = m.userId) ∨
      (∃ u ∈ st.users, u.id = m.userId) := by
  intro m hm
  have hsame : m ∈ st.messages →
      (∃ m0 ∈ st.messages, m0.channelId = m.channelId ∧ m0.userId = m.userId) ∨
      (∃ u ∈ st.users, u.id = m.userId) :=
    fun h => Or.inl ⟨m, h, rfl, rfl⟩
  cases i with
  | connect sid =>
    apply hsame
    simpa [step, connect_messages] using hm
  | authenticate sid token =>
    apply hsame
    simp only [step] at hm
    split at hm
    · simpa [authenticate_messages] using hm
    · exact hm
  | disconnect sid =>
    apply hsame
    simp only [step] at hm
    split at hm
    · simpa [disconnect_messages] using hm
    · exact hm
  | create_channel sid data =>
    apply hsame
    simp only [step] at hm
    split at hm
    · simpa [create_channel_messages] using hm
    · exact hm
  | join_channel sid C =>
    simp only [step] at hm
    split at hm
    · rw [join_channel_messages] at hm
      cases hcur : currentUserId st sid with
      | none => rw [hcur] at hm; exact hsame hm
      | some u =>
        rw [hcur] at hm
        simp only at hm
        split at hm
        · simp only [catchUp, List.mem_map] at hm
          obtain ⟨x, hx, rfl⟩ := hm
          refine Or.inl ⟨x, hx, ?_, ?_⟩ <;> split <;> rfl
        · exact hsame hm
    · exact hsame hm
  | message_seen sid messageId channelId =>
    simp only [step] at hm
    split at hm
    · simp only [message_seen, markDelivered, List.mem_map] at hm
      obtain ⟨x, hx, rfl⟩ := hm
      refine Or.inl ⟨x, hx, ?_, ?_⟩ <;> split <;> rfl
    · exact hsame hm
  | send_message sid data now =>
    simp only [step] at hm
    split at hm
    · cases hcreate : Message.create st data.content data.userId data.channelId now with
      | none =>
        apply hsame
        simpa [send_message, hcreate] using hm
      | some p =>
        obtain ⟨m0, s1⟩ := p
        obtain ⟨_, hrow, _, hu⟩ := Message.create_eq_some hcreate
        obtain ⟨u, hufind⟩ := Option.isSome_iff_exists.mp hu
        have hnew : ∃ u ∈ st.users, u.id = m0.userId := by
          refine ⟨u, List.mem_of_find?_eq_some hufind, ?_⟩
          rw [hrow]; simpa [User.findByPk] using List.find?_some hufind
        rw [send_message_of_create st sid data now m0 s1 hcreate] at hm
        split at hm
        · simp only [List.mem_append, List.mem_singleton] at hm
          rcases hm with hm | rfl
          · exact hsame hm
          · exact Or.inr hnew
        · simp only [List.mem_append, List.mem_singleton] at hm
          rcases hm with hm | rfl
          · exact hsame hm
          · exact Or.inr hnew
    · exact hsame hm

/-- One handled event keeps the authors of the messages stored. -/
theorem step_author (verify : String → Option Nat) (st : State) (i : Input)
    (h : AuthorIntegrity st) : AuthorIntegrity (step verify st i).1 := by
  intro m hm
  have holds : ∃ u ∈ st.users, u.id = m.userId := by
    rcases step_messages_from verify st i m hm with ⟨m0, hm0, _, hu⟩ | hnew
    · obtain ⟨u, hum, huid⟩ := h m0 hm0
      exact ⟨u, hum, huid.trans hu⟩
    · exact hnew
  obtain ⟨u, hum, huid⟩ := holds
  obtain ⟨u', hu', huid'⟩ := step_users_kept verify st i u hum
  exact ⟨u', hu', huid'.trans huid⟩

/-- C19 as amended: in every state reached from a store satisfying it, by
`send_message` or any other handled event, every stored message has a stored
user as its author (the foreign key of `Messages.userId`).  Neither that the
channel exists nor that the author is a participant of it is checked. -/
theorem author_integrity_invariant (verify : String → Option Nat) (s0 : State)
    (h0 : AuthorIntegrity s0) (run : List Input) :
    AuthorIntegrity (exec verify s0 run) := by
  induction run using List.reverseRecOn with
  | nil => exact h0
  | append_singleton pre i ih =>
    rw [exec_append_singleton]
    exact step_author verify _ i ih

/-- The amended C19 after the two sends of the counterexample. -/
theorem author_integrity_invariant_witness :
    AuthorIntegrity
      (exec sampleVerify sampleOutsiderState
        [.send_message 30 ⟨some "hi", 3, 1⟩ 100, .send_message 30 ⟨some "hi", 3, 99⟩ 101]) :=
  author_integrity_invariant sampleVerify sampleOutsiderState
    (by unfold AuthorIntegrity; decide)
    [.send_message 30 ⟨some "hi", 3, 1⟩ 100, .send_message 30 ⟨some "hi", 3, 99⟩ 101]

/-! ## New channels, leaving, disconnecting -/

/-- Joining a room changes the membership of no other room. -/
theorem fetchSockets_socketJoin_other (s : State) (sid : Nat) (room r : Room) (hne : room ≠ r) :
    fetchSockets (socketJoin s sid room) r = fetchSockets s r := by
  unfold fetchSockets socketJoin
  simp only
  congr 1
  induction s.sockets with
  | nil => rfl
  | cons a rest ih =>
    simp only [List.map_cons, List.filter_cons]
    by_cases hj : a.id = sid ∧ room ∉ a.rooms
    · rw [if_pos hj]
      have hmem : (r ∈ a.rooms ++ [room]) ↔ r ∈ a.rooms := by
        simp only [List.mem_append, List.mem_singleton]
        exact ⟨fun h => h.resolve_right (fun h' => hne h'.symm), Or.inl⟩
      by_cases hr : r ∈ a.rooms
      · simp [hr, ih]
      · have hr' : ¬ r ∈ a.rooms ++ [room] := fun h => hr (hmem.mp h)
        simp only [hr, hr', decide_False, decide_True]
        simpa using ih
    · rw [if_neg hj]
      by_cases hr : r ∈ a.rooms
      · simp [hr, ih]
      · simp [hr, ih]

/-- C23: for stored users `A` and `T` without a channel between them,
`create_channel` with `userId = A` and `targetUserId = T` appends exactly one
channel, with participants `A` and `T` and a key no stored channel has; it
answers the requester with `channel_created` carrying that key, the username,
avatar and online flag of `T`, and null `lastMessage` and `lastMessageTime`;
and it pushes `new_channel` with the same data once to each socket in the
personal room of `T` and to no other socket. -/
theorem create_channel_new (s : State) (sid : Nat) (A T : Nat) (a t : User)
    (hnone : Channel.findOne s.channels A T = none)
    (hA : User.findByPk s.users A = some a) (hT : User.findByPk s.users T = some t) :
    (create_channel s sid ⟨A, T⟩).1.channels =
      s.channels ++ [⟨nextId (s.channels.map fun c => c.id), A, T, none, none⟩] ∧
    (∀ c ∈ s.channels, c.id ≠ nextId (s.channels.map fun c => c.id)) ∧
    (create_channel s sid ⟨A, T⟩).2 =
      ((fetchSockets s (.user T)).map fun k =>
        (⟨k, .new_channel ⟨nextId (s.channels.map fun c => c.id), t.username, t.avatar,
          t.online, none, none⟩⟩ : Emit)) ++
      [⟨sid, .channel_created (.created ⟨nextId (s.channels.map fun c => c.id), t.username,
          t.avatar, t.online, none, none⟩)⟩] ∧
    (fetchSockets s (.user T)).Nodup ∧
    ∀ k, k ∈ fetchSockets s (.user T) ↔
      ∃ sock ∈ s.sockets, sock.id = k ∧ Room.user T ∈ sock.rooms := by
  have hcreate := create_channel_eq_created s sid ⟨A, T⟩ a t hnone hA hT
  refine ⟨by rw [hcreate]; rfl, ?_, ?_, nodup_fetchSockets _ _, mem_fetchSockets _ _⟩
  · intro c hc
    exact Nat.ne_of_lt (nextId_gt _ _ (List.mem_map_of_mem _ hc))
  · rw [hcreate]
    simp only [ioToEmit]
    rw [fetchSockets_socketJoin_other _ _ _ _ (by simp)]
    rfl

/-- C23 at the sample store: socket 10 asks for the pair of users 1 and 2. -/
theorem create_channel_new_witness :
    (create_channel sampleState 10 ⟨1, 2⟩).1.channels =
      sampleState.channels ++
        [⟨nextId (sampleState.channels.map fun c => c.id), 1, 2, none, none⟩] ∧
    (∀ c ∈ sampleState.channels, c.id ≠ nextId (sampleState.channels.map fun c => c.id)) ∧
    (create_channel sampleState 10 ⟨1, 2⟩).2 =
      ((fetchSockets sampleState (.user 2)).map fun k =>
        (⟨k, .new_channel ⟨nextId (sampleState.channels.map fun c => c.id), "bob",
          some "bob.png", false, none, none⟩⟩ : Emit)) ++
      [⟨10, .channel_created (.created ⟨nextId (sampleState.channels.map fun c => c.id), "bob",
          some "bob.png", false, none, none⟩)⟩] ∧
    (fetchSockets sampleState (.user 2)).Nodup ∧
    ∀ k, k ∈ fetchSockets sampleState (.user 2) ↔
      ∃ sock ∈ sampleState.sockets, sock.id = k ∧ Room.user 2 ∈ sock.rooms :=
  create_channel_new sampleState 10 1 2 ⟨1, "ann", "5550000001", none, false⟩
    ⟨2, "bob", "5550000002", some "bob.png", false⟩ (by decide) (by decide) (by decide)

/-- C24: the disconnect of a socket bound to no user changes no `online` flag
(users, channels and messages are untouched, the socket itself leaves the live
sockets) and emits nothing, so no `user_status_change`. -/
theorem disconnect_unauthenticated (s : State) (sid : Nat) (hnone : currentUserId s sid = none) :
    (disconnect s sid).1.users = s.users ∧
    (disconnect s sid).1.channels = s.channels ∧
    (disconnect s sid).1.messages = s.messages ∧
    (disconnect s sid).1.sockets = s.sockets.filter (fun k => decide (k.id ≠ sid)) ∧
    (disconnect s sid).2 = [] := by
  have h : disconnect s sid =
      ({ s with sockets := s.sockets.filter fun k => decide (k.id ≠ sid) }, []) := by
    unfold disconnect
    simp only [hnone]
  rw [h]
  exact ⟨rfl, rfl, rfl, rfl, rfl⟩

/-- C24 at the sample store: socket 10 has not authenticated. -/
theorem disconnect_unauthenticated_witness :
    (disconnect sampleAnonymousState 10).1.users = sampleAnonymousState.users ∧
    (disconnect sampleAnonymousState 10).1.channels = sampleAnonymousState.channels ∧
    (disconnect sampleAnonymousState 10).1.messages = sampleAnonymousState.messages ∧
    (disconnect sampleAnonymousState 10).1.sockets =
      sampleAnonymousState.sockets.filter (fun k => decide (k.id ≠ 10)) ∧
    (disconnect sampleAnonymousState 10).2 = [] :=
  disconnect_unauthenticated sampleAnonymousState 10 (by decide)

/-- C21, evaluated: sockets 10 and 20 are joined to channel 1.  After socket 20
has sent `leave_channel` for channel 1 it is still a member of the room, and
the next message on the channel is delivered to it, `receive_message` and
`message_delivered` alike. -/
theorem leave_channel_ignored :
    fetchSockets sampleJoinedState (.channel 1) = [10, 20] ∧
    fetchSockets (leave_channel sampleJoinedState 20 1).1 (.channel 1) = [10, 20] ∧
    ((send_message (leave_channel sampleJoinedState 20 1).1 10 ⟨some "hi", 1, 1⟩ 100).2.filter
        fun e => decide (e.target = 20)).map (fun e => e.event.name) =
      ["receive_message", "message_delivered"] := by
  decide

/-- C27, evaluated: socket 20 is the live connection of user 2.  After socket 10
has created the channel of users 1 and 2, socket 10 is the only member of the
room of the new channel, and a message sent on it at once is emitted to socket
10 alone. -/
theorem create_channel_joins_requester_only :
    fetchSockets sampleState (.user 2) = [20] ∧
    (create_channel sampleState 10 ⟨1, 2⟩).1.channels = [⟨1, 1, 2, none, none⟩] ∧
    fetchSockets (create_channel sampleState 10 ⟨1, 2⟩).1 (.channel 1) = [10] ∧
    (send_message (create_channel sampleState 10 ⟨1, 2⟩).1 10 ⟨some "hi", 1, 1⟩ 100).2.map
        (fun e => (e.target, e.event.name)) = [(10, "receive_message")] := by
  decide

/-! ## The history of a join, and the delivered flag -/

/-- The emission of `join_channel`: the newest 50 rows of the channel as stored
before the catch-up, oldest first, each with its author. -/
theorem join_channel_history (s : State) (sid C : Nat) :
    (join_channel s sid C).2 =
      [⟨sid, .message_history
        (((orderByCreatedAtDesc (s.messages.filter fun m => decide (m.channelId = C))).take
          50).map (includeUser s.users)).reverse⟩] := rfl

/-- The message rows of a list of messages with authors. -/
theorem map_message_includeUser (users : List User) (ms : List Message) :
    (ms.map (includeUser users)).map (fun e => e.message) = ms := by
  rw [List.map_map]
  conv_rhs => rw [← List.map_id ms]
  apply List.map_congr_left
  intro m _
  rfl

/-- C25: `join_channel` emits exactly one event, `message_history`, to the
joining socket.  Its list has `min n 50` entries for a channel with `n` stored
messages, is in ascending `createdAt` order, and holds the messages of the
channel with the greatest `createdAt`: with the messages left out it makes up
the channel, and no message left out is newer than a listed one. -/
theorem join_channel_last_fifty (s : State) (sid C : Nat) :
    ∃ history rest,
      (join_channel s sid C).2 = [⟨sid, .message_history history⟩] ∧
      history.length = min (s.messages.filter fun m => decide (m.channelId = C)).length 50 ∧
      (history.map fun e => e.message).Pairwise (fun a b => a.createdAt ≤ b.createdAt) ∧
      ((history.map fun e => e.message) ++ rest).Perm
        (s.messages.filter fun m => decide (m.channelId = C)) ∧
      ∀ a ∈ rest, ∀ b ∈ history.map (fun e => e.message), a.createdAt ≤ b.createdAt := by
  have hsorted := orderByCreatedAtDesc_pairwise (s.messages.filter fun m => decide (m.channelId = C))
  have hperm := orderByCreatedAtDesc_perm (s.messages.filter fun m => decide (m.channelId = C))
  refine ⟨_, (orderByCreatedAtDesc (s.messages.filter fun m => decide (m.channelId = C))).drop 50,
    join_channel_history s sid C, ?_, ?_, ?_, ?_⟩
  · rw [List.length_reverse, List.length_map, List.length_take, hperm.length_eq, Nat.min_comm]
  · rw [List.map_reverse, map_message_includeUser, List.pairwise_reverse]
    exact hsorted.sublist (List.take_sublist _ _)
  · rw [List.map_reverse, map_message_includeUser]
    refine ((List.reverse_perm _).append_right _).trans ?_
    rw [List.take_append_drop]
    exact hperm
  · intro a ha b hb
    rw [List.map_reverse, map_message_includeUser, List.mem_reverse] at hb
    rw [← List.take_append_drop 50 (orderByCreatedAtDesc _)] at hsorted
    exact (List.pairwise_append.mp hsorted).2.2 b hb a ha

/-- A row that is already delivered is not changed by marking it delivered. -/
theorem Message.deliver_delivered (m : Message) (h : m.delivered = true) :
    ({ m with delivered := true } : Message) = m := by
  cases m
  simp_all

/-- C30 does not hold: channel 1 holds 51 undelivered messages of user 1.  The
join of socket 20 (user 2) flips message 1, the oldest, to delivered, but the
emitted list holds only the messages 2 to 51: message 1 does not appear in
it. -/
theorem join_history_counterexample :
    (⟨1, "m", 1, 1, false, 0⟩ : Message) ∈ sampleLongChannelState.messages ∧
    (⟨1, "m", 1, 1, true, 0⟩ : Message) ∈ (join_channel sampleLongChannelState 20 1).1.messages ∧
    (join_channel sampleLongChannelState 20 1).2.map (fun e =>
      match e.event with
      | .message_history history => history.map fun r => r.message.id
      | _ => []) = [(List.range 50).map fun i => i + 2] := by
  decide

/-- C30 as amended: every entry of the `message_history` list emitted by
`join_channel` is a row of the channel as stored before the catch-up of that
join; when the channel holds at most 50 messages, every message of the
channel, so every message the join flips from undelivered to delivered,
appears in the list as it was stored before, with `delivered = false`. -/
theorem join_history_before_catch_up (s : State) (sid C : Nat) :
    ∃ history,
      (join_channel s sid C).2 = [⟨sid, .message_history history⟩] ∧
      (∀ e ∈ history, e.message ∈ s.messages ∧ e.message.channelId = C) ∧
      ((s.messages.filter fun m => decide (m.channelId = C)).length ≤ 50 →
        ∀ m ∈ s.messages, m.channelId = C → includeUser s.users m ∈ history) := by
  have hperm := orderByCreatedAtDesc_perm (s.messages.filter fun m => decide (m.channelId = C))
  refine ⟨_, join_channel_history s sid C, ?_, ?_⟩
  · intro e he
    rw [List.mem_reverse, List.mem_map] at he
    obtain ⟨m, hm, rfl⟩ := he
    have hmem := hperm.subset (List.mem_of_mem_take hm)
    rw [List.mem_filter] at hmem
    exact ⟨hmem.1, by simpa using hmem.2⟩
  · intro hlen m hm hC
    rw [List.mem_reverse, List.take_of_length_le (by rw [hperm.length_eq]; exact hlen)]
    refine List.mem_map_of_mem _ (hperm.symm.subset ?_)
    rw [List.mem_filter]
    exact ⟨hm, by simpa using hC⟩

/-- The amended C30 at the sample store with one undelivered message. -/
theorem join_history_before_catch_up_witness :
    ∃ history,
      (join_channel sampleUndeliveredState 20 1).2 = [⟨20, .message_history history⟩] ∧
      (∀ e ∈ history, e.message ∈ sampleUndeliveredState.messages ∧ e.message.channelId = 1) ∧
      ((sampleUndeliveredState.messages.filter fun m => decide (m.channelId = 1)).length ≤ 50 →
        ∀ m ∈ sampleUndeliveredState.messages, m.channelId = 1 →
          includeUser sampleUndeliveredState.users m ∈ history) :=
  join_history_before_catch_up sampleUndeliveredState 20 1

/-- One handled event keeps every delivered row as it is. -/
theorem step_delivered_kept (verify : String → Option Nat) (st : State) (i : Input)
    (m : Message) (hm : m ∈ st.messages) (hd : m.delivered = true) :
    m ∈ (step verify st i).1.messages := by
  cases i with
  | connect sid => simpa [step, connect_messages] using hm
  | authenticate sid token =>
    simp only [step]
    split
    · rw [authenticate_messages]; exact hm
    · exact hm
  | create_channel sid data =>
    simp only [step]
    split
    · rw [create_channel_messages]; exact hm
    · exact hm
  | disconnect sid =>
    simp only [step]
    split
    · rw [disconnect_messages]; exact hm
    · exact hm
  | join_channel sid C =>
    simp only [step]
    split
    · rw [join_channel_messages]
      cases currentUserId st sid with
      | none => exact hm
      | some u =>
        simp only
        split
        · simp only [catchUp, List.mem_map]
          refine ⟨m, hm, ?_⟩
          rw [if_neg]
          rintro ⟨_, _, hfalse⟩
          rw [hd] at hfalse
          exact absurd hfalse (by decide)
        · exact hm
    · exact hm
  | send_message sid data now =>
    simp only [step]
    split
    · cases hcreate : Message.create st data.content data.userId data.channelId now with
      | none => simpa [send_message, hcreate] using hm
      | some p =>
        obtain ⟨m0, s1⟩ := p
        rw [send_message_of_create st sid data now m0 s1 hcreate]
        split <;> exact List.mem_append_left _ hm
    · exact hm
  | message_seen sid messageId channelId =>
    simp only [step]
    split
    · simp only [message_seen, markDelivered, List.mem_map]
      refine ⟨m, hm, ?_⟩
      split
      · exact Message.deliver_delivered m hd
      · rfl
    · exact hm

/-- C28: the delivered flag is monotone.  A message stored with
`delivered = true` is stored unchanged, so with `delivered = true`, after every
run of handled events (connect, authenticate, create_channel, join_channel,
send_message, message_seen, disconnect); the history route only reads the
state. -/
theorem delivered_monotone (verify : String → Option Nat) (run : List Input) :
    ∀ (st : State) (m : Message), m ∈ st.messages → m.delivered = true →
      m ∈ (exec verify st run).messages := by
  induction run with
  | nil => intro st m hm _; exact hm
  | cons i rest ih =>
    intro st m hm hd
    exact ih (step verify st i).1 m (step_delivered_kept verify st i m hm hd) hd

/-- C28 at the sample store with two delivered messages, over a run that
joins, marks and sends. -/
theorem delivered_monotone_witness :
    (⟨1, "first", 1, 1, true, 100⟩ : Message) ∈
      (exec sampleVerify sampleTieState
        [.connect 10, .authenticate 10 "token-bob", .join_channel 10 1, .message_seen 10 1 1,
         .send_message 10 ⟨some "third", 2, 1⟩ 300, .disconnect 10]).messages :=
  delivered_monotone sampleVerify
    [.connect 10, .authenticate 10 "token-bob", .join_channel 10 1, .message_seen 10 1 1,
     .send_message 10 ⟨some "third", 2, 1⟩ 300, .disconnect 10]
    sampleTieState ⟨1, "first", 1, 1, true, 100⟩ (by decide) rfl

/-- C29 does not hold for every number sent as `messageId`: sockets 10 and 20
are joined to channel 1, yet `message_seen` with the message id 4294967297,
which is beyond the INTEGER range of `Messages.id`, has its update rejected
and broadcasts nothing. -/
theorem message_seen_out_of_range_counterexample :
    fetchSockets sampleJoinedState (.channel 1) = [10, 20] ∧
    message_seen_integer sampleJoinedState 4294967297 1 = (sampleJoinedState, []) := by
  decide

/-- C29 as amended: for a message id within the INTEGER range of `Messages.id`,
`message_seen` sets `delivered = true` on the stored messages with the given
message id, whatever their channel, and changes nothing else in the state; it
emits `message_delivered` with the given message id and channel id once to
each socket joined to the room of the given channel id and to no other socket,
whether or not a message with that id is stored or belongs to that channel.
For a message id beyond that range the state is unchanged and nothing is
emitted. -/
theorem message_seen_footprint (s : State) (messageId channelId : Nat) :
    (messageId ≤ integerMax →
      (message_seen_integer s messageId channelId).1.messages =
        s.messages.map (fun m => if m.id = messageId then { m with delivered := true } else m) ∧
      (message_seen_integer s messageId channelId).1.users = s.users ∧
      (message_seen_integer s messageId channelId).1.channels = s.channels ∧
      (message_seen_integer s messageId channelId).1.sockets = s.sockets ∧
      (message_seen_integer s messageId channelId).2 =
        (fetchSockets s (.channel channelId)).map
          (fun k => (⟨k, .message_delivered messageId channelId⟩ : Emit)) ∧
      (fetchSockets s (.channel channelId)).Nodup ∧
      ∀ k, k ∈ fetchSockets s (.channel channelId) ↔
        ∃ sock ∈ s.sockets, sock.id = k ∧ Room.channel channelId ∈ sock.rooms) ∧
    (integerMax < messageId → message_seen_integer s messageId channelId = (s, [])) := by
  refine ⟨fun hin => ?_, fun hout => ?_⟩
  · have hseen : message_seen_integer s messageId channelId =
        message_seen s messageId channelId := by
      unfold message_seen_integer
      rw [if_pos hin]
    rw [hseen]
    exact ⟨rfl, rfl, rfl, rfl, rfl, nodup_fetchSockets _ _, mem_fetchSockets _ _⟩
  · unfold message_seen_integer
    rw [if_neg (by omega)]
    rfl

/-- The amended C29 at the sample store: message id 7, which no stored message
has, on channel 1. -/
theorem message_seen_footprint_witness :
    (message_seen_integer sampleJoinedState 7 1).1.messages =
      sampleJoinedState.messages.map
        (fun m => if m.id = 7 then { m with delivered := true } else m) ∧
    (message_seen_integer sampleJoinedState 7 1).1.users = sampleJoinedState.users ∧
    (message_seen_integer sampleJoinedState 7 1).1.channels = sampleJoinedState.channels ∧
    (message_seen_integer sampleJoinedState 7 1).1.sockets = sampleJoinedState.sockets ∧
    (message_seen_integer sampleJoinedState 7 1).2 =
      (fetchSockets sampleJoinedState (.channel 1)).map
        (fun k => (⟨k, .message_delivered 7 1⟩ : Emit)) ∧
    (fetchSockets sampleJoinedState (.channel 1)).Nodup ∧
    ∀ k, k ∈ fetchSockets sampleJoinedState (.channel 1) ↔
      ∃ sock ∈ sampleJoinedState.sockets, sock.id = k ∧ Room.channel 1 ∈ sock.rooms :=
  (message_seen_footprint sampleJoinedState 7 1).1 (by decide)

/-! ## Phone number validation -/

/-- The greedy digit match consumes the whole input exactly when the input is
made of at most `max` digits, and then counts its length. -/
theorem matchDigits_rest_nil (max : Nat) (cs : List Char) :
    (matchDigits max cs).2 = [] ↔ (cs.all isRegexDigit = true ∧ cs.length ≤ max) := by
  induction max generalizing cs with
  | zero =>
    cases cs with
    | nil => simp [matchDigits]
    | cons c rest => simp [matchDigits]
  | succ n ih =>
    cases cs with
    | nil => simp [matchDigits]
    | cons c rest =>
      by_cases hc : isRegexDigit c = true
      · simp only [matchDigits, hc, if_true, List.all_cons, Bool.true_and, List.length_cons,
          Nat.add_le_add_iff_right]
        exact ih rest
      · simp [matchDigits, hc]

/-- When the greedy digit match consumes the whole input it counts its length. -/
theorem matchDigits_count (max : Nat) (cs : List Char) (h : (matchDigits max cs).2 = []) :
    (matchDigits max cs).1 = cs.length := by
  induction max generalizing cs with
  | zero =>
    cases cs with
    | nil => rfl
    | cons c rest => simp [matchDigits] at h
  | succ n ih =>
    cases cs with
    | nil => rfl
    | cons c rest =>
      by_cases hc : isRegexDigit c = true
      · simp only [matchDigits, hc, if_true] at h ⊢
        rw [ih rest h, List.length_cons]
      · simp [matchDigits, hc] at h

/-- C26: `validatePhoneNumber` accepts a string exactly when the string with
every hyphen, parenthesis and white-space character removed consists of
decimal digits only and has between 10 and 15 characters; the string so
stripped is the phone number sent to the server. -/
theorem validatePhoneNumber_iff (phoneNumber : List Char) :
    validatePhoneNumber phoneNumber = true ↔
      ((formatPhoneNumber phoneNumber).all isRegexDigit = true ∧
        10 ≤ (formatPhoneNumber phoneNumber).length ∧
        (formatPhoneNumber phoneNumber).length ≤ 15) := by
  unfold validatePhoneNumber phoneRegexTest
  rw [Bool.and_eq_true, decide_eq_true_eq, List.isEmpty_iff]
  constructor
  · rintro ⟨hten, hrest⟩
    have hcount := matchDigits_count 15 _ hrest
    obtain ⟨hall, hlen⟩ := (matchDigits_rest_nil 15 _).mp hrest
    exact ⟨hall, hcount ▸ hten, hlen⟩
  · rintro ⟨hall, hten, hlen⟩
    have hrest := (matchDigits_rest_nil 15 _).mpr ⟨hall, hlen⟩
    exact ⟨(matchDigits_count 15 _ hrest).symm ▸ hten, hrest⟩

/-! ## Rejected store calls -/

/-- C22 does not hold: when the update of `message_seen` rejects, or the update
of `authenticate`, the handler emits nothing at all, so no failure event
reaches the issuing socket. -/
theorem store_failure_counterexample :
    message_seen_failing sampleJoinedState 1 1 0 = (sampleJoinedState, []) ∧
    (authenticate_failing sampleVerify sampleState 10 "token-ann" 0).2 = [] := by
  decide

/-- C22 as amended: a store call that rejects inside `create_channel` or
`send_message` is caught and surfaced to the issuing socket, and to no other,
as `channel_error` respectively `message_error` (rows written before the
rejection stay written, and a `receive_message` already broadcast stays
sent); a store call that rejects inside `message_seen` or `authenticate` is
caught without any event being emitted. -/
theorem store_failure_surfaced (verify : String → Option Nat) (s : State) (sid : Nat) :
    (∀ data, create_channel_failing s sid data 0 = (s, [⟨sid, .channel_error⟩])) ∧
    (∀ data, Channel.findOne s.channels data.userId data.targetUserId = none →
      create_channel_failing s sid data 1 = (s, [⟨sid, .channel_error⟩])) ∧
    (∀ data c s1, Channel.findOne s.channels data.userId data.targetUserId = none →
      Channel.create s data.userId data.targetUserId = some (c, s1) →
      create_channel_failing s sid data 2 = (s1, [⟨sid, .channel_error⟩])) ∧
    (∀ data now, send_message_failing s sid data now 0 = (s, [⟨sid, .message_error⟩])) ∧
    (∀ data now m s1,
      Message.create s data.content data.userId data.channelId now = some (m, s1) →
      send_message_failing s sid data now 1 = (s1, [⟨sid, .message_error⟩]) ∧
      send_message_failing s sid data now 2 = (s1, [⟨sid, .message_error⟩])) ∧
    (∀ data now m s1,
      Message.create s data.content data.userId data.channelId now = some (m, s1) →
      1 < (fetchSockets s (.channel data.channelId)).length →
      emitsNamed "message_error" (send_message_failing s sid data now 3).2 =
        [⟨sid, .message_error⟩]) ∧
    (∀ messageId channelId, message_seen_failing s messageId channelId 0 = (s, [])) ∧
    (∀ token, (authenticate_failing verify s sid token 0).2 = []) := by
  refine ⟨fun _ => rfl, ?_, ?_, fun _ _ => rfl, ?_, ?_, fun _ _ => rfl, ?_⟩
  · intro data hnone
    simp only [create_channel_failing, hnone]
  · intro data c s1 hnone hcreate
    simp only [create_channel_failing, hnone, hcreate]
  · intro data now m s1 hcreate
    simp only [send_message_failing, hcreate, and_self]
  · intro data now m s1 hcreate hmany
    obtain ⟨_, _, rfl, _⟩ := Message.create_eq_some hcreate
    have hfetch : fetchSockets
        (setLastMessage { s with messages := s.messages ++ [m] } data.channelId m.id m.createdAt)
        (.channel data.channelId) = fetchSockets s (.channel data.channelId) := rfl
    simp only [send_message_failing, hcreate, hfetch, gt_iff_lt, hmany, if_true, ioToEmit,
      emitsNamed_append, emitsNamed_map, Outbound.name]
    simp [emitsNamed, Outbound.name]
  · intro token
    simp only [authenticate_failing]
    split <;> rfl

/-- The amended C22 at the sample store: the last update of `send_message`
rejects after the broadcast. -/
theorem store_failure_surfaced_witness :
    emitsNamed "message_error"
      (send_message_failing sampleJoinedState 10 ⟨some "hi", 1, 1⟩ 100 3).2 =
        [⟨10, .message_error⟩] :=
  (store_failure_surfaced sampleVerify sampleJoinedState 10).2.2.2.2.2.1
    ⟨some "hi", 1, 1⟩ 100 ⟨1, "hi", 1, 1, false, 100⟩
    { sampleJoinedState with messages := sampleJoinedState.messages ++
        [⟨1, "hi", 1, 1, false, 100⟩] }
    (by decide) (by decide)

end ChatApp
